import Mathlib

/-!
Verification development for the gravity-integration core of the
Musical-Solar-System repository (`backend/body.py`, `backend/system.py`).

Python floats are embedded as real numbers, numpy 3-vectors as functions
`Fin 3 → ℝ`, raised exceptions as `Except` / `Option` error values, and the
mutable body list of a `System` as explicit state passing.  The quadtree of
the external `fastquadtree` library is modelled by its documented semantics:
an axis-aligned range query that returns every inserted point lying in the
closed query rectangle, tagged with its insertion id (insertion ids are
assigned consecutively from 0, so they coincide with positions in the
`non_stars` list that is inserted in order).  The bounding-box computation
that `_compute_gravity` performs before building the quadtree only chooses
the tree's outer bounds; every inserted point lies inside those bounds by
construction, so the bounds do not affect which points a query returns and
they are not reproduced here.
-/

/-- Three-dimensional real vector, the embedding of a numpy array of shape `(3,)`. -/
abbrev Vec3 := Fin 3 → ℝ

/-- Literal 3-vector. -/
def v3 (a b c : ℝ) : Vec3 := ![a, b, c]

/-- Euclidean norm of a 3-vector, the embedding of `np.linalg.norm`. -/
noncomputable def vnorm (v : Vec3) : ℝ := Real.sqrt (v 0 ^ 2 + v 1 ^ 2 + v 2 ^ 2)

/-- Embedding of `math.hypot`. -/
noncomputable def hypot (a b : ℝ) : ℝ := Real.sqrt (a ^ 2 + b ^ 2)

/-- Componentwise division of a vector by a scalar (numpy broadcasting). -/
noncomputable def vdiv (v : Vec3) (c : ℝ) : Vec3 := fun i => v i / c

/-- Python exceptions raised by the core: `ValueError` is the spec's
InvalidArgument error, `ZeroDivisionError` the spec's InvalidState error. -/
inductive PyError where
  | ValueError : String → PyError
  | ZeroDivisionError : String → PyError
deriving DecidableEq

/-- Embedding of `PhysicsBody` (`backend/body.py`).  The `system` back
reference carries no state of its own and is dropped; `_force` is the `force`
field.  The constructor's shape check on `position`/`velocity` is enforced
by the type `Vec3`. -/
structure PhysicsBody where
  name : String
  mass : ℝ
  position : Vec3
  velocity : Vec3
  force : Vec3
  metadata : List (String × String)

instance : Inhabited PhysicsBody :=
  ⟨{ name := "", mass := 0, position := 0, velocity := 0, force := 0, metadata := [] }⟩

/-- `PhysicsBody.reset_force`: zero the accumulated force. -/
def PhysicsBody.reset_force (b : PhysicsBody) : PhysicsBody :=
  { b with force := 0 }

/-- `PhysicsBody.apply_force`: add to the accumulated force. -/
def PhysicsBody.apply_force (b : PhysicsBody) (f : Vec3) : PhysicsBody :=
  { b with force := b.force + f }

/-- `PhysicsBody.acceleration`: `force / mass`, raising `ZeroDivisionError`
when the mass is zero. -/
noncomputable def PhysicsBody.acceleration (b : PhysicsBody) : Except PyError Vec3 :=
  if b.mass = 0 then .error (.ZeroDivisionError "Cannot integrate body with zero mass.")
  else .ok (vdiv b.force b.mass)

/-- `PhysicsBody.integrate`: semi-implicit Euler; the velocity is updated
first and the position update uses the updated velocity.  An exception from
`acceleration` propagates before any field is written. -/
noncomputable def PhysicsBody.integrate (b : PhysicsBody) (dt : ℝ) : Except PyError PhysicsBody :=
  match b.acceleration with
  | .error e => .error e
  | .ok a =>
    let v := b.velocity + dt • a
    .ok { b with velocity := v, position := b.position + dt • v }

/-- Test `(body.metadata or {}).get("kind") == "star"` from `_compute_gravity`. -/
def is_star (b : PhysicsBody) : Bool := b.metadata.lookup "kind" == some "star"

/-- Embedding of `System` (`backend/system.py`): name, gravitational
constant and the ordered body list. -/
structure System where
  name : String
  gravitational_constant : ℝ
  bodies : List PhysicsBody

/-- Module constant `G_DEFAULT` of `backend/system.py`. -/
noncomputable def G_DEFAULT : ℝ := 6.67430e-11

/-- Module constant `CULL_DISTANCE_AU` of `backend/system.py`: planet-planet
forces beyond this distance are skipped. -/
noncomputable def CULL_DISTANCE_AU : ℝ := 1.0

/-- Update of the element at one index of a list, the embedding of a
mutation performed through a reference held into `self.bodies`. -/
def modifyIdx {α : Type} (l : List α) (i : ℕ) (f : α → α) : List α :=
  match l[i]? with
  | none => l
  | some b => l.set i (f b)

/-- Embedding of the closure `apply_force_pair` inside `_compute_gravity`:
compute the inverse-square force along the connecting line and add it to the
primary body (index `i`) and its negation to the secondary body (index `j`);
collocated bodies are skipped. -/
noncomputable def apply_force_pair (G : ℝ) (bodies : List PhysicsBody) (i j : ℕ) :
    List PhysicsBody :=
  let primary := bodies.getD i default
  let secondary := bodies.getD j default
  let offset := secondary.position - primary.position
  let distance := vnorm offset
  if distance = 0 then bodies
  else
    let direction := vdiv offset distance
    let magnitude := G * primary.mass * secondary.mass / distance ^ 2
    let force := magnitude • direction
    modifyIdx (modifyIdx bodies i (fun b => b.apply_force force)) j
      (fun b => b.apply_force (-force))

/-- Value of the force that `apply_force_pair G bodies i j` adds to the body
at index `i` (the body at index `j` receives its negation); zero for a
collocated pair. -/
noncomputable def pair_force (G : ℝ) (bodies : List PhysicsBody) (i j : ℕ) : Vec3 :=
  let primary := bodies.getD i default
  let secondary := bodies.getD j default
  let offset := secondary.position - primary.position
  let distance := vnorm offset
  if distance = 0 then 0
  else (G * primary.mass * secondary.mass / distance ^ 2) • vdiv offset distance

/-- Contribution of the ordered pair `p` to the accumulated force of the
body at index `k`. -/
noncomputable def pair_contrib (G : ℝ) (bodies : List PhysicsBody) (k : ℕ) (p : ℕ × ℕ) : Vec3 :=
  if k = p.1 then pair_force G bodies p.1 p.2
  else if k = p.2 then -pair_force G bodies p.1 p.2
  else 0

/-- Indices into `bodies` of the members of the `stars` list of
`_compute_gravity` (a Python list of references, embedded as indices). -/
def star_indices (bodies : List PhysicsBody) : List ℕ :=
  (List.range bodies.length).filter (fun k => is_star (bodies.getD k default))

/-- Indices into `bodies` of the members of the `non_stars` list of
`_compute_gravity`. -/
def non_star_indices (bodies : List PhysicsBody) : List ℕ :=
  (List.range bodies.length).filter (fun k => !is_star (bodies.getD k default))

/-- Range query of the `fastquadtree` `QuadTree` holding `points` (inserted
in list order, so insertion ids equal list positions): all inserted points
inside the closed rectangle `(min_x, min_y, max_x, max_y)`, as
`(id, x, y)` triples. -/
noncomputable def quadtree_query (points : List (ℝ × ℝ)) (rect : ℝ × ℝ × ℝ × ℝ) :
    List (ℕ × ℝ × ℝ) :=
  points.enum.filter (fun c =>
    decide (rect.1 ≤ c.2.1 ∧ c.2.1 ≤ rect.2.2.1 ∧ rect.2.1 ≤ c.2.2 ∧ c.2.2 ≤ rect.2.2.2))

/-- Culled planet-planet pass of `_compute_gravity`, as the list of ordered
body-index pairs to which `apply_force_pair` is applied, in program order:
for each position `idx` in the `non_stars` list (`ns` holds the body indices
of its members), query the quadtree for candidates in the box of half-side
`CULL_DISTANCE_AU`, keep candidates with id greater than `idx`, then apply
the exact planar distance filter. -/
noncomputable def culled_pairs (bodies : List PhysicsBody) (ns : List ℕ) : List (ℕ × ℕ) :=
  let pts := ns.map (fun k => ((bodies.getD k default).position 0, (bodies.getD k default).position 1))
  (List.range ns.length).flatMap (fun idx =>
    let x := (bodies.getD (ns.getD idx 0) default).position 0
    let y := (bodies.getD (ns.getD idx 0) default).position 1
    let query_rect := (x - CULL_DISTANCE_AU, y - CULL_DISTANCE_AU,
      x + CULL_DISTANCE_AU, y + CULL_DISTANCE_AU)
    let candidates := quadtree_query pts query_rect
    (((candidates.filter (fun c => decide (idx < c.1))).filter (fun c =>
        let dx := c.2.1 - x
        let dy := c.2.2 - y
        let distance := hypot dx dy
        decide (¬(distance > CULL_DISTANCE_AU ∨ distance = 0)))).map
      (fun c => (ns.getD idx 0, ns.getD c.1 0))))

/-- Embedding of `System._compute_gravity`: reset all forces, apply the
uncullled star ↔ non-star interactions, then the quadtree-culled non-star
pairs.  It raises no exception. -/
noncomputable def System.compute_gravity (s : System) : System :=
  let bodies0 := s.bodies.map PhysicsBody.reset_force
  if bodies0.isEmpty then { s with bodies := bodies0 }
  else
    let sIdx := star_indices bodies0
    let nsIdx := non_star_indices bodies0
    let pairsA := sIdx.flatMap (fun i => nsIdx.map (fun j => (i, j)))
    let afterStars := pairsA.foldl
      (fun bs p => apply_force_pair s.gravitational_constant bs p.1 p.2) bodies0
    if nsIdx.length < 2 then { s with bodies := afterStars }
    else
      let pairsB := culled_pairs afterStars nsIdx
      { s with bodies := (pairsB.foldl
          (fun bs p => apply_force_pair s.gravitational_constant bs p.1 p.2) afterStars) }

/-- Integrate the bodies in order (`for body in self.bodies: body.integrate(dt)`).
When one body raises, the earlier bodies keep their updated state, the
raising body and the later ones are untouched, and the error propagates. -/
noncomputable def integrate_bodies (dt : ℝ) : List PhysicsBody → Option PyError × List PhysicsBody
  | [] => (none, [])
  | b :: rest =>
    match b.integrate dt with
    | .error e => (some e, b :: rest)
    | .ok b2 =>
      let r := integrate_bodies dt rest
      (r.1, b2 :: r.2)

/-- Embedding of `System.step`: no-op without bodies, otherwise compute
gravity then integrate every body by `dt`. -/
noncomputable def System.step (s : System) (dt : ℝ) : Option PyError × System :=
  if s.bodies.isEmpty then (none, s)
  else
    let g := s.compute_gravity
    let r := integrate_bodies dt g.bodies
    (r.1, { g with bodies := r.2 })

/-- Iterated `step`: `N` consecutive `step dt` calls, stopping at the first
raised error. -/
noncomputable def System.stepN (s : System) (dt : ℝ) : ℕ → Option PyError × System
  | 0 => (none, s)
  | n + 1 =>
    let r := s.stepN dt n
    match r.1 with
    | some e => (some e, r.2)
    | none => r.2.step dt

/-- Total momentum of a system: the sum of `mass * velocity` over the bodies. -/
noncomputable def System.total_momentum (s : System) : Vec3 :=
  (s.bodies.map (fun b => b.mass • b.velocity)).sum

/-- Per-body record stored in a sample by `capture_sample`: name, position
copy and metadata copy, embedded by value. This value-level view records
the contents at capture time; the heap model below makes the object
identities explicit and shows which parts of the copies are genuinely
fresh and which nested values `dict(metadata)` still shares with the live
body. -/
structure SampleBody where
  name : String
  position : Vec3
  metadata : List (String × String)

/-- One snapshot returned by the sampler: `{"t": t, "bodies": [...]}`. -/
structure Sample where
  t : ℝ
  bodies : List SampleBody

/-- Embedding of the closure `capture_sample` inside `sample_positions`. -/
def System.capture_sample (s : System) (t : ℝ) : Sample :=
  { t := t
    bodies := s.bodies.map (fun b =>
      { name := b.name, position := b.position, metadata := b.metadata }) }

/-- Sampling loop of `sample_positions` (`for idx in range(1, steps + 1)`),
with the number of remaining iterations first: step, then capture at
`idx * dt`; an error aborts the loop, keeping the samples gathered so far
(they are discarded by the caller) and the partially advanced system. -/
noncomputable def sample_loop (dt : ℝ) :
    ℕ → ℕ → System → List Sample → Option PyError × List Sample × System
  | 0, _, s, acc => (none, acc, s)
  | n + 1, idx, s, acc =>
    let r := s.step dt
    match r.1 with
    | some e => (some e, acc, r.2)
    | none => sample_loop dt n (idx + 1) r.2 (acc ++ [r.2.capture_sample ((idx : ℝ) * dt)])

/-- Restoration in the `finally` block of `sample_positions`: write the
preserved position and velocity back into each body and reset its force. -/
def restore_state (preserved : List (Vec3 × Vec3)) (bodies : List PhysicsBody) :
    List PhysicsBody :=
  List.zipWith
    (fun pv b => PhysicsBody.reset_force { b with position := pv.1, velocity := pv.2 })
    preserved bodies

/-- Embedding of `System.sample_positions`: validate the arguments, capture
a pre-step sample at `t = 0`, run the loop, and restore the preserved state
on every exit path (the `finally` block), then return the samples or
re-raise the loop's error. -/
noncomputable def System.sample_positions (s : System)
    (duration_seconds sample_rate_hz : ℝ) : Except PyError (List Sample) × System :=
  if sample_rate_hz ≤ 0 then (.error (.ValueError "sample_rate_hz must be positive"), s)
  else if duration_seconds ≤ 0 then (.error (.ValueError "duration_seconds must be positive"), s)
  else if s.bodies.isEmpty then (.ok [], s)
  else
    let dt := 1 / sample_rate_hz
    let steps := max 1 (Int.ceil (duration_seconds * sample_rate_hz)).toNat
    let preserved := s.bodies.map (fun b => (b.position, b.velocity))
    let r := sample_loop dt steps 1 s [s.capture_sample 0]
    let restored := { r.2.2 with bodies := restore_state preserved r.2.2.bodies }
    match r.1 with
    | some e => (.error e, restored)
    | none => (.ok r.2.1, restored)

/-- A value stored in a metadata dict. Python strings, numbers and booleans
are immutable and are modelled as atoms copied by value; a mutable list
value — such as the request's `position`/`velocity` lists that
`_build_initial_bodies` spreads from the raw planet dict into a body's
metadata, kept as the same list objects by the shallow `dict(...)` copy in
`PhysicsBody.__init__` — is modelled as a reference into a store of
mutable list cells. -/
inductive MetaValue where
  | atom : String → MetaValue
  | listRef : ℕ → MetaValue
deriving DecidableEq

/-- Heap of position arrays, metadata dicts and mutable list objects, used
to model Python object aliasing for `capture_sample`: a cell index is an
object identity, and two distinct cells share no state directly, but two
metadata dict cells holding the same `listRef` share that one mutable list
object. -/
structure Heap where
  posCells : List Vec3
  metaCells : List (List (String × MetaValue))
  listCells : List (List ℝ)

/-- Live body as seen by the aliasing model: its position array and
metadata dict are references into the heap. -/
structure LiveBody where
  name : String
  posRef : ℕ
  metaRef : ℕ

/-- Per-body sample record as built by `capture_sample`, holding references
to the cells freshly allocated for the copies. -/
structure SampleBodyRef where
  name : String
  posRef : ℕ
  metaRef : ℕ

/-- Mutation of a live position array (`body.position[...] = ...` or a
rebinding observed through the same array object). -/
def Heap.writePos (h : Heap) (r : ℕ) (v : Vec3) : Heap :=
  { h with posCells := h.posCells.set r v }

/-- Top-level mutation of a live metadata dict: rebinding, adding or
removing entries of the dict object itself. -/
def Heap.writeMeta (h : Heap) (r : ℕ) (m : List (String × MetaValue)) : Heap :=
  { h with metaCells := h.metaCells.set r m }

/-- In-place mutation of a mutable list object, e.g.
`body.metadata["position"][0] = ...` or `.append(...)` reached through a
live body's metadata dict. -/
def Heap.writeList (h : Heap) (r : ℕ) (l : List ℝ) : Heap :=
  { h with listCells := h.listCells.set r l }

/-- Dereference the records stored in a sample body: the copied position
and the raw (top-level) metadata entries, exposing which list objects the
dict references. -/
def Heap.readSampleBody (h : Heap) (sb : SampleBodyRef) : Vec3 × List (String × MetaValue) :=
  (h.posCells.getD sb.posRef 0, h.metaCells.getD sb.metaRef [])

/-- Resolve a stored metadata value to its current contents: an atom is its
own contents, a list reference dereferences the list cell. -/
def Heap.resolveMeta (h : Heap) : MetaValue → String ⊕ List ℝ
  | .atom s => .inl s
  | .listRef r => .inr (h.listCells.getD r [])

/-- A sample body's copied position list. -/
def Heap.readSamplePos (h : Heap) (sb : SampleBodyRef) : Vec3 :=
  h.posCells.getD sb.posRef 0

/-- A sample body's metadata dict with every value resolved to its current
contents — what a consumer of the returned sample observes. -/
def Heap.readSampleMetaDeep (h : Heap) (sb : SampleBodyRef) :
    List (String × (String ⊕ List ℝ)) :=
  (h.metaCells.getD sb.metaRef []).map (fun e => (e.1, h.resolveMeta e.2))

/-- The current value of a live body's position array. -/
def Heap.readLivePos (h : Heap) (b : LiveBody) : Vec3 :=
  h.posCells.getD b.posRef 0

/-- The current top-level entries of a live body's metadata dict. -/
def Heap.readLiveMetaRaw (h : Heap) (b : LiveBody) : List (String × MetaValue) :=
  h.metaCells.getD b.metaRef []

/-- Aliasing model of the body loop of `capture_sample`: for each live body,
`body.position.copy().tolist()` allocates a fresh position cell holding a
full copy of the current coordinates (plain floats, sharing nothing with
the live array), while `dict(body.metadata)` allocates a fresh dict cell
holding the same top-level entries — a shallow copy: atoms are copied by
value, but a `listRef` entry in the fresh dict still points at the very
list object the live body's dict points at. No list cell is allocated or
written. -/
def capture_bodies_heap : Heap → List LiveBody → Heap × List SampleBodyRef
  | h, [] => (h, [])
  | h, b :: rest =>
    let pv := h.posCells.getD b.posRef 0
    let mv := h.metaCells.getD b.metaRef []
    let r1 := h.posCells.length
    let r2 := h.metaCells.length
    let h1 : Heap := { h with posCells := h.posCells ++ [pv], metaCells := h.metaCells ++ [mv] }
    let r := capture_bodies_heap h1 rest
    (r.1, { name := b.name, posRef := r1, metaRef := r2 } :: r.2)

/-- Effective culling cutoff used by `_compute_gravity` for a given system:
the body of `_compute_gravity` reads the module constant `CULL_DISTANCE_AU`
and `System.__init__` (parameters `name`, `gravitational_constant`,
`initial_bodies`) accepts no cutoff, so the cutoff does not depend on the
instance. -/
noncomputable def System.cull_cutoff (_ : System) : ℝ := CULL_DISTANCE_AU

/-- Planar (x-y) distance between the bodies at two indices. -/
noncomputable def dist2D (bodies : List PhysicsBody) (i j : ℕ) : ℝ :=
  hypot ((bodies.getD j default).position 0 - (bodies.getD i default).position 0)
    ((bodies.getD j default).position 1 - (bodies.getD i default).position 1)

/-- Euclidean (3-dimensional) distance between the bodies at two indices. -/
noncomputable def dist3D (bodies : List PhysicsBody) (i j : ℕ) : ℝ :=
  vnorm ((bodies.getD j default).position - (bodies.getD i default).position)

/-- Pairs named by the claim text for the star pass: every (star, non-star)
pair with nonzero separation, each exactly once, in program order. -/
noncomputable def spec_star_pairs (bodies : List PhysicsBody) : List (ℕ × ℕ) :=
  ((star_indices bodies).flatMap (fun i => (non_star_indices bodies).map (fun j => (i, j)))).filter
    (fun p => decide (dist3D bodies p.1 p.2 ≠ 0))

/-- Pairs named by the claim text for the culled pass, with the separation
read as the claim reads it: every unordered pair of non-star bodies, taken
once with the earlier body first, whose Euclidean separation `d` satisfies
`0 < d ≤ CULL_DISTANCE_AU`. -/
noncomputable def spec_culled_pairs_3d (bodies : List PhysicsBody) : List (ℕ × ℕ) :=
  let ns := non_star_indices bodies
  (List.range ns.length).flatMap (fun i =>
    ((((List.range ns.length).filter (fun j => decide (i < j))).filter (fun j =>
        decide (0 < dist3D bodies (ns.getD i 0) (ns.getD j 0) ∧
          dist3D bodies (ns.getD i 0) (ns.getD j 0) ≤ CULL_DISTANCE_AU))).map
      (fun j => (ns.getD i 0, ns.getD j 0))))

/-- Pairs retained by the culled pass as the code actually selects them:
every unordered pair of non-star bodies, taken once with the earlier body
first, whose planar (x-y) distance `d` satisfies `0 < d ≤ CULL_DISTANCE_AU`. -/
noncomputable def spec_culled_pairs_2d (bodies : List PhysicsBody) : List (ℕ × ℕ) :=
  let ns := non_star_indices bodies
  (List.range ns.length).flatMap (fun i =>
    ((((List.range ns.length).filter (fun j => decide (i < j))).filter (fun j =>
        decide (0 < dist2D bodies (ns.getD i 0) (ns.getD j 0) ∧
          dist2D bodies (ns.getD i 0) (ns.getD j 0) ≤ CULL_DISTANCE_AU))).map
      (fun j => (ns.getD i 0, ns.getD j 0))))

/-- Net force the claim text assigns to the body at index `k`: the sum of
the inverse-square pair contributions over the star pairs and the culled
pairs selected by Euclidean separation. -/
noncomputable def spec_forces_3d (s : System) (k : ℕ) : Vec3 :=
  ((spec_star_pairs s.bodies ++ spec_culled_pairs_3d s.bodies).map
    (pair_contrib s.gravitational_constant s.bodies k)).sum

/-- Net force actually produced by `_compute_gravity` for the body at index
`k`, written as a sum over explicit pairs: as `spec_forces_3d` but with the
culled pairs selected by planar distance. -/
noncomputable def spec_forces_2d (s : System) (k : ℕ) : Vec3 :=
  ((spec_star_pairs s.bodies ++ spec_culled_pairs_2d s.bodies).map
    (pair_contrib s.gravitational_constant s.bodies k)).sum

@[simp] lemma apply_force_position (b : PhysicsBody) (f : Vec3) :
    (b.apply_force f).position = b.position := rfl

@[simp] lemma apply_force_velocity (b : PhysicsBody) (f : Vec3) :
    (b.apply_force f).velocity = b.velocity := rfl

@[simp] lemma apply_force_mass (b : PhysicsBody) (f : Vec3) :
    (b.apply_force f).mass = b.mass := rfl

@[simp] lemma apply_force_metadata (b : PhysicsBody) (f : Vec3) :
    (b.apply_force f).metadata = b.metadata := rfl

@[simp] lemma apply_force_name (b : PhysicsBody) (f : Vec3) :
    (b.apply_force f).name = b.name := rfl

@[simp] lemma apply_force_force (b : PhysicsBody) (f : Vec3) :
    (b.apply_force f).force = b.force + f := rfl

@[simp] lemma reset_force_position (b : PhysicsBody) :
    b.reset_force.position = b.position := rfl

@[simp] lemma reset_force_velocity (b : PhysicsBody) :
    b.reset_force.velocity = b.velocity := rfl

@[simp] lemma reset_force_mass (b : PhysicsBody) : b.reset_force.mass = b.mass := rfl

@[simp] lemma reset_force_metadata (b : PhysicsBody) :
    b.reset_force.metadata = b.metadata := rfl

@[simp] lemma reset_force_name (b : PhysicsBody) : b.reset_force.name = b.name := rfl

@[simp] lemma reset_force_force (b : PhysicsBody) : b.reset_force.force = 0 := rfl

lemma modifyIdx_length {α : Type} (l : List α) (i : ℕ) (f : α → α) :
    (modifyIdx l i f).length = l.length := by
  unfold modifyIdx
  cases h : l[i]? with
  | none => rfl
  | some b => simp

lemma getD_eq_getElem? {α : Type} [Inhabited α] (l : List α) (k : ℕ) :
    l.getD k default = (l[k]?).getD default := by
  simp [List.getD]

lemma modifyIdx_getD (l : List PhysicsBody) (i : ℕ) (f : PhysicsBody → PhysicsBody)
    (hi : i < l.length) (k : ℕ) :
    (modifyIdx l i f).getD k default =
      if k = i then f (l.getD i default) else l.getD k default := by
  unfold modifyIdx
  cases h : l[i]? with
  | none =>
    rw [List.getElem?_eq_none_iff] at h
    omega
  | some b =>
    have hb : l.getD i default = b := by rw [getD_eq_getElem?, h]; rfl
    by_cases hk : k = i
    · subst hk
      rw [getD_eq_getElem?, if_pos rfl, hb]
      have hset : (l.set k (f b))[k]? = some (f b) := by
        simp [List.getElem?_set_self', hi]
      rw [hset]; rfl
    · rw [getD_eq_getElem?, if_neg hk, List.getElem?_set_ne (fun hik => hk hik.symm),
        getD_eq_getElem?]

lemma getD_map_of_fixed (f : PhysicsBody → PhysicsBody) (hf : f default = default)
    (l : List PhysicsBody) (k : ℕ) :
    (l.map f).getD k default = f (l.getD k default) := by
  rw [getD_eq_getElem?, getD_eq_getElem?, List.getElem?_map]
  cases l[k]? with
  | none => simpa using hf.symm
  | some a => rfl

/-- Two body lists agree on everything except possibly the accumulated
forces. -/
def EqStatic (bs bs2 : List PhysicsBody) : Prop :=
  bs.length = bs2.length ∧ ∀ k : ℕ,
    (bs.getD k default).position = (bs2.getD k default).position ∧
    (bs.getD k default).mass = (bs2.getD k default).mass ∧
    (bs.getD k default).metadata = (bs2.getD k default).metadata ∧
    (bs.getD k default).name = (bs2.getD k default).name

lemma eqStatic_refl (bs : List PhysicsBody) : EqStatic bs bs :=
  ⟨rfl, fun _ => ⟨rfl, rfl, rfl, rfl⟩⟩

lemma EqStatic.trans {a b c : List PhysicsBody} (h1 : EqStatic a b) (h2 : EqStatic b c) :
    EqStatic a c := by
  refine ⟨h1.1.trans h2.1, fun k => ?_⟩
  obtain ⟨p1, m1, d1, n1⟩ := h1.2 k
  obtain ⟨p2, m2, d2, n2⟩ := h2.2 k
  exact ⟨p1.trans p2, m1.trans m2, d1.trans d2, n1.trans n2⟩

lemma eqStatic_modifyIdx_apply_force (l : List PhysicsBody) (i : ℕ) (f : Vec3) :
    EqStatic l (modifyIdx l i (fun b => b.apply_force f)) := by
  refine ⟨(modifyIdx_length l i _).symm, fun k => ?_⟩
  by_cases hi : i < l.length
  · rw [modifyIdx_getD l i _ hi k]
    by_cases hk : k = i <;> simp [hk]
  · unfold modifyIdx
    rw [List.getElem?_eq_none_iff.2 (by omega)]
    exact ⟨rfl, rfl, rfl, rfl⟩

lemma eqStatic_apply_force_pair (G : ℝ) (bs : List PhysicsBody) (i j : ℕ) :
    EqStatic bs (apply_force_pair G bs i j) := by
  unfold apply_force_pair
  by_cases h : vnorm ((bs.getD j default).position - (bs.getD i default).position) = 0
  · rw [if_pos h]; exact eqStatic_refl bs
  · rw [if_neg h]
    exact (eqStatic_modifyIdx_apply_force bs i _).trans
      (eqStatic_modifyIdx_apply_force _ j _)

lemma eqStatic_foldl (G : ℝ) (L : List (ℕ × ℕ)) (bs : List PhysicsBody) :
    EqStatic bs (L.foldl (fun b p => apply_force_pair G b p.1 p.2) bs) := by
  induction L generalizing bs with
  | nil => exact eqStatic_refl bs
  | cons p L ih =>
    exact (eqStatic_apply_force_pair G bs p.1 p.2).trans (ih _)

lemma eqStatic_reset (bs : List PhysicsBody) :
    EqStatic bs (bs.map PhysicsBody.reset_force) := by
  refine ⟨(List.length_map _ _).symm, fun k => ?_⟩
  rw [getD_map_of_fixed PhysicsBody.reset_force rfl]
  exact ⟨rfl, rfl, rfl, rfl⟩

lemma pair_force_congr (G : ℝ) {bs bs2 : List PhysicsBody} (h : EqStatic bs bs2) (i j : ℕ) :
    pair_force G bs i j = pair_force G bs2 i j := by
  obtain ⟨pi, mi, -, -⟩ := h.2 i
  obtain ⟨pj, mj, -, -⟩ := h.2 j
  simp only [pair_force]
  rw [pi, mi, pj, mj]

lemma pair_contrib_congr (G : ℝ) {bs bs2 : List PhysicsBody} (h : EqStatic bs bs2)
    (k : ℕ) (p : ℕ × ℕ) : pair_contrib G bs k p = pair_contrib G bs2 k p := by
  simp only [pair_contrib]
  rw [pair_force_congr G h]

lemma is_star_congr {bs bs2 : List PhysicsBody} (h : EqStatic bs bs2) (k : ℕ) :
    is_star (bs.getD k default) = is_star (bs2.getD k default) := by
  unfold is_star
  rw [(h.2 k).2.2.1]

lemma star_indices_congr {bs bs2 : List PhysicsBody} (h : EqStatic bs bs2) :
    star_indices bs = star_indices bs2 := by
  unfold star_indices
  rw [h.1]
  exact List.filter_congr (fun k _ => is_star_congr h k)

lemma non_star_indices_congr {bs bs2 : List PhysicsBody} (h : EqStatic bs bs2) :
    non_star_indices bs = non_star_indices bs2 := by
  unfold non_star_indices
  rw [h.1]
  exact List.filter_congr (fun k _ => by rw [is_star_congr h k])

lemma dist2D_congr {bs bs2 : List PhysicsBody} (h : EqStatic bs bs2) (i j : ℕ) :
    dist2D bs i j = dist2D bs2 i j := by
  unfold dist2D
  rw [(h.2 i).1, (h.2 j).1]

lemma dist3D_congr {bs bs2 : List PhysicsBody} (h : EqStatic bs bs2) (i j : ℕ) :
    dist3D bs i j = dist3D bs2 i j := by
  unfold dist3D
  rw [(h.2 i).1, (h.2 j).1]

lemma culled_pairs_congr {bs bs2 : List PhysicsBody} (h : EqStatic bs bs2) (ns : List ℕ) :
    culled_pairs bs ns = culled_pairs bs2 ns := by
  have hp : ∀ k, (bs.getD k default).position = (bs2.getD k default).position :=
    fun k => (h.2 k).1
  unfold culled_pairs
  simp only [hp]

lemma apply_force_pair_getD (G : ℝ) (bs : List PhysicsBody) (i j : ℕ)
    (hi : i < bs.length) (hj : j < bs.length) (hij : i ≠ j) (k : ℕ) (hk : k < bs.length) :
    (apply_force_pair G bs i j).getD k default =
      { bs.getD k default with
        force := (bs.getD k default).force + pair_contrib G bs k (i, j) } := by
  simp only [apply_force_pair, pair_contrib, pair_force]
  by_cases h : vnorm ((bs.getD j default).position - (bs.getD i default).position) = 0
  · rw [if_pos h, if_pos h]
    simp
  · rw [if_neg h, if_neg h,
      modifyIdx_getD _ j _ (by rw [modifyIdx_length]; exact hj) k]
    by_cases hkj : k = j
    · have hki : k ≠ i := fun e => hij (e.symm.trans hkj)
      rw [if_pos hkj, modifyIdx_getD _ i _ hi j, if_neg (fun e : j = i => hij e.symm),
        if_neg hki, if_pos hkj]
      subst hkj
      rfl
    · rw [if_neg hkj, modifyIdx_getD _ i _ hi k]
      by_cases hki : k = i
      · rw [if_pos hki, if_pos hki]
        subst hki
        rfl
      · rw [if_neg hki, if_neg hki, if_neg hkj, add_zero]

lemma foldl_forces (G : ℝ) (L : List (ℕ × ℕ)) :
    ∀ (bs : List PhysicsBody), (∀ p ∈ L, p.1 < bs.length ∧ p.2 < bs.length ∧ p.1 ≠ p.2) →
    ∀ k, k < bs.length →
      (L.foldl (fun b p => apply_force_pair G b p.1 p.2) bs).getD k default =
        { bs.getD k default with
          force := (bs.getD k default).force + (L.map (pair_contrib G bs k)).sum } := by
  induction L with
  | nil =>
    intro bs _ k _
    simp
  | cons p L ih =>
    intro bs hL k hk
    obtain ⟨hp1, hp2, hp12⟩ := hL p (by simp)
    have hEq := eqStatic_apply_force_pair G bs p.1 p.2
    have hlen : (apply_force_pair G bs p.1 p.2).length = bs.length := hEq.1.symm
    rw [List.foldl_cons,
      ih (apply_force_pair G bs p.1 p.2)
        (fun q hq => by rw [hlen]; exact hL q (by simp [hq]))
        k (by rw [hlen]; exact hk),
      apply_force_pair_getD G bs p.1 p.2 hp1 hp2 hp12 k hk]
    have hmap : L.map (pair_contrib G (apply_force_pair G bs p.1 p.2) k) =
        L.map (pair_contrib G bs k) := by
      apply List.map_congr_left
      intro q _
      exact (pair_contrib_congr G hEq k q).symm
    rw [hmap, List.map_cons, List.sum_cons, add_assoc]

lemma mem_star_indices {bodies : List PhysicsBody} {k : ℕ} (h : k ∈ star_indices bodies) :
    k < bodies.length ∧ is_star (bodies.getD k default) = true := by
  unfold star_indices at h
  obtain ⟨h1, h2⟩ := List.mem_filter.1 h
  exact ⟨List.mem_range.1 h1, h2⟩

lemma mem_non_star_indices {bodies : List PhysicsBody} {k : ℕ}
    (h : k ∈ non_star_indices bodies) :
    k < bodies.length ∧ is_star (bodies.getD k default) = false := by
  unfold non_star_indices at h
  obtain ⟨h1, h2⟩ := List.mem_filter.1 h
  exact ⟨List.mem_range.1 h1, by simpa using h2⟩

lemma non_star_indices_pairwise (bodies : List PhysicsBody) :
    (non_star_indices bodies).Pairwise (· < ·) :=
  List.Pairwise.filter _ (List.pairwise_lt_range _)

lemma non_star_indices_getD_lt (bodies : List PhysicsBody) {i j : ℕ}
    (hi : i < (non_star_indices bodies).length) (hj : j < (non_star_indices bodies).length)
    (hij : i < j) :
    (non_star_indices bodies).getD i 0 < (non_star_indices bodies).getD j 0 := by
  rw [List.getD_eq_getElem _ _ hi, List.getD_eq_getElem _ _ hj]
  exact List.pairwise_iff_getElem.1 (non_star_indices_pairwise bodies) i j hi hj hij

lemma getD_mem_of_lt {l : List ℕ} {i : ℕ} (h : i < l.length) : l.getD i 0 ∈ l := by
  rw [List.getD_eq_getElem _ _ h]
  exact List.getElem_mem h

lemma mem_culled_pairs {bodies : List PhysicsBody} {ns : List ℕ} {p : ℕ × ℕ}
    (hp : p ∈ culled_pairs bodies ns) :
    ∃ a b : ℕ, a < ns.length ∧ b < ns.length ∧ a < b ∧ p = (ns.getD a 0, ns.getD b 0) := by
  unfold culled_pairs at hp
  simp only [List.mem_flatMap, List.mem_map, List.mem_filter] at hp
  obtain ⟨idx, hidx, c, ⟨⟨hc1, hc2⟩, -⟩, hpc⟩ := hp
  refine ⟨idx, c.1, List.mem_range.1 hidx, ?_, by simpa using hc2, hpc.symm⟩
  unfold quadtree_query at hc1
  have hmem := (List.mem_filter.1 hc1).1
  have := List.fst_lt_of_mem_enum hmem
  simpa using this

/-- Pairs to which `_compute_gravity` applies `apply_force_pair`, in program
order: the star pass followed by the culled pass (the latter only when at
least two non-star bodies exist). -/
noncomputable def code_pairs (s : System) : List (ℕ × ℕ) :=
  let bodies0 := s.bodies.map PhysicsBody.reset_force
  let sIdx := star_indices bodies0
  let nsIdx := non_star_indices bodies0
  (sIdx.flatMap (fun i => nsIdx.map (fun j => (i, j)))) ++
    (if nsIdx.length < 2 then [] else culled_pairs bodies0 nsIdx)

lemma star_pairs_valid (bodies0 : List PhysicsBody) :
    ∀ p ∈ (star_indices bodies0).flatMap
        (fun i => (non_star_indices bodies0).map (fun j => (i, j))),
      p.1 < bodies0.length ∧ p.2 < bodies0.length ∧ p.1 ≠ p.2 := by
  intro p hp
  simp only [List.mem_flatMap, List.mem_map] at hp
  obtain ⟨i, hi, j, hj, rfl⟩ := hp
  obtain ⟨hi1, hi2⟩ := mem_star_indices hi
  obtain ⟨hj1, hj2⟩ := mem_non_star_indices hj
  refine ⟨hi1, hj1, fun e => ?_⟩
  have e2 : i = j := e
  rw [e2] at hi2
  rw [hi2] at hj2
  simp at hj2

lemma culled_pairs_valid {bodiesq bodies0 : List PhysicsBody} (p : ℕ × ℕ)
    (hp : p ∈ culled_pairs bodiesq (non_star_indices bodies0)) :
    p.1 < bodies0.length ∧ p.2 < bodies0.length ∧ p.1 ≠ p.2 := by
  obtain ⟨a, b, ha, hb, hab, rfl⟩ := mem_culled_pairs hp
  have h1 := (mem_non_star_indices (getD_mem_of_lt ha)).1
  have h2 := (mem_non_star_indices (getD_mem_of_lt hb)).1
  have hlt := non_star_indices_getD_lt bodies0 ha hb hab
  exact ⟨h1, h2, Nat.ne_of_lt hlt⟩

lemma compute_gravity_getD (s : System) :
    s.compute_gravity.bodies.length = s.bodies.length ∧
    ∀ k, k < s.bodies.length →
      s.compute_gravity.bodies.getD k default =
        { s.bodies.getD k default with
          force := ((code_pairs s).map
            (pair_contrib s.gravitational_constant s.bodies k)).sum } := by
  have hEq0 : EqStatic s.bodies (s.bodies.map PhysicsBody.reset_force) :=
    eqStatic_reset s.bodies
  simp only [System.compute_gravity, code_pairs]
  by_cases hemp : (s.bodies.map PhysicsBody.reset_force).isEmpty = true
  · rw [if_pos hemp]
    have hbe : s.bodies = [] := by
      rw [List.isEmpty_iff] at hemp
      simpa using hemp
    constructor
    · simp [hbe]
    · intro k hk
      rw [hbe] at hk
      simp at hk
  · rw [if_neg hemp]
    have hvalidA := star_pairs_valid (s.bodies.map PhysicsBody.reset_force)
    have hEqA : EqStatic (s.bodies.map PhysicsBody.reset_force)
        (((star_indices (s.bodies.map PhysicsBody.reset_force)).flatMap
            (fun i => (non_star_indices (s.bodies.map PhysicsBody.reset_force)).map
              (fun j => (i, j)))).foldl
          (fun bs p => apply_force_pair s.gravitational_constant bs p.1 p.2)
          (s.bodies.map PhysicsBody.reset_force)) :=
      eqStatic_foldl _ _ _
    have hEqSA := hEq0.trans hEqA
    have hlen0 : (s.bodies.map PhysicsBody.reset_force).length = s.bodies.length :=
      List.length_map _ _
    by_cases hns : (non_star_indices (s.bodies.map PhysicsBody.reset_force)).length < 2
    · rw [if_pos hns, if_pos hns]
      refine ⟨hEqA.1.symm.trans hlen0, fun k hk => ?_⟩
      have hk0 : k < (s.bodies.map PhysicsBody.reset_force).length := by
        rw [hlen0]; exact hk
      rw [foldl_forces _ _ _ hvalidA k hk0,
        getD_map_of_fixed PhysicsBody.reset_force rfl]
      have hsum : (PhysicsBody.reset_force (s.bodies.getD k default)).force +
          (((star_indices (s.bodies.map PhysicsBody.reset_force)).flatMap
              (fun i => (non_star_indices (s.bodies.map PhysicsBody.reset_force)).map
                (fun j => (i, j)))).map
            (pair_contrib s.gravitational_constant (s.bodies.map PhysicsBody.reset_force) k)).sum =
          ((((star_indices (s.bodies.map PhysicsBody.reset_force)).flatMap
              (fun i => (non_star_indices (s.bodies.map PhysicsBody.reset_force)).map
                (fun j => (i, j)))) ++ []).map
            (pair_contrib s.gravitational_constant s.bodies k)).sum := by
        rw [reset_force_force, zero_add, List.append_nil]
        congr 1
        apply List.map_congr_left
        intro q _
        exact (pair_contrib_congr _ hEq0 k q).symm
      rw [hsum]
      rfl
    · rw [if_neg hns, if_neg hns]
      have hvalidB : ∀ p ∈ culled_pairs
          (((star_indices (s.bodies.map PhysicsBody.reset_force)).flatMap
              (fun i => (non_star_indices (s.bodies.map PhysicsBody.reset_force)).map
                (fun j => (i, j)))).foldl
            (fun bs p => apply_force_pair s.gravitational_constant bs p.1 p.2)
            (s.bodies.map PhysicsBody.reset_force))
          (non_star_indices (s.bodies.map PhysicsBody.reset_force)),
          p.1 < (((star_indices (s.bodies.map PhysicsBody.reset_force)).flatMap
              (fun i => (non_star_indices (s.bodies.map PhysicsBody.reset_force)).map
                (fun j => (i, j)))).foldl
            (fun bs p => apply_force_pair s.gravitational_constant bs p.1 p.2)
            (s.bodies.map PhysicsBody.reset_force)).length ∧
          p.2 < (((star_indices (s.bodies.map PhysicsBody.reset_force)).flatMap
              (fun i => (non_star_indices (s.bodies.map PhysicsBody.reset_force)).map
                (fun j => (i, j)))).foldl
            (fun bs p => apply_force_pair s.gravitational_constant bs p.1 p.2)
            (s.bodies.map PhysicsBody.reset_force)).length ∧
          p.1 ≠ p.2 := by
        intro p hp
        obtain ⟨q1, q2, q3⟩ := culled_pairs_valid p hp
        rw [← hEqA.1]
        exact ⟨q1, q2, q3⟩
      refine ⟨?_, fun k hk => ?_⟩
      · rw [(eqStatic_foldl s.gravitational_constant _ _).1.symm.trans
          (hEqA.1.symm.trans hlen0)]
      · have hk0 : k < (s.bodies.map PhysicsBody.reset_force).length := by
          rw [hlen0]; exact hk
        have hkA : k < (((star_indices (s.bodies.map PhysicsBody.reset_force)).flatMap
            (fun i => (non_star_indices (s.bodies.map PhysicsBody.reset_force)).map
              (fun j => (i, j)))).foldl
            (fun bs p => apply_force_pair s.gravitational_constant bs p.1 p.2)
            (s.bodies.map PhysicsBody.reset_force)).length := by
          rw [← hEqA.1]; exact hk0
        rw [foldl_forces _ _ _ hvalidB k hkA,
          foldl_forces _ _ _ hvalidA k hk0,
          getD_map_of_fixed PhysicsBody.reset_force rfl]
        have hculled : culled_pairs
            (((star_indices (s.bodies.map PhysicsBody.reset_force)).flatMap
                (fun i => (non_star_indices (s.bodies.map PhysicsBody.reset_force)).map
                  (fun j => (i, j)))).foldl
              (fun bs p => apply_force_pair s.gravitational_constant bs p.1 p.2)
              (s.bodies.map PhysicsBody.reset_force))
            (non_star_indices (s.bodies.map PhysicsBody.reset_force)) =
            culled_pairs (s.bodies.map PhysicsBody.reset_force)
              (non_star_indices (s.bodies.map PhysicsBody.reset_force)) :=
          (culled_pairs_congr hEqA _).symm
        rw [hculled]
        have hsum : ((PhysicsBody.reset_force (s.bodies.getD k default)).force +
            (((star_indices (s.bodies.map PhysicsBody.reset_force)).flatMap
                (fun i => (non_star_indices (s.bodies.map PhysicsBody.reset_force)).map
                  (fun j => (i, j)))).map
              (pair_contrib s.gravitational_constant (s.bodies.map PhysicsBody.reset_force) k)).sum) +
            ((culled_pairs (s.bodies.map PhysicsBody.reset_force)
                (non_star_indices (s.bodies.map PhysicsBody.reset_force))).map
              (pair_contrib s.gravitational_constant
                (((star_indices (s.bodies.map PhysicsBody.reset_force)).flatMap
                    (fun i => (non_star_indices (s.bodies.map PhysicsBody.reset_force)).map
                      (fun j => (i, j)))).foldl
                  (fun bs p => apply_force_pair s.gravitational_constant bs p.1 p.2)
                  (s.bodies.map PhysicsBody.reset_force)) k)).sum =
            ((((star_indices (s.bodies.map PhysicsBody.reset_force)).flatMap
                (fun i => (non_star_indices (s.bodies.map PhysicsBody.reset_force)).map
                  (fun j => (i, j)))) ++
              culled_pairs (s.bodies.map PhysicsBody.reset_force)
                (non_star_indices (s.bodies.map PhysicsBody.reset_force))).map
              (pair_contrib s.gravitational_constant s.bodies k)).sum := by
          rw [reset_force_force, zero_add, List.map_append, List.sum_append]
          congr 1
          · congr 1
            apply List.map_congr_left
            intro q _
            exact (pair_contrib_congr _ hEq0 k q).symm
          · congr 1
            apply List.map_congr_left
            intro q _
            exact (pair_contrib_congr _ hEqSA k q).symm
        rw [hsum]
        rfl

lemma eqStatic_symm {bs bs2 : List PhysicsBody} (h : EqStatic bs bs2) : EqStatic bs2 bs := by
  refine ⟨h.1.symm, fun k => ?_⟩
  obtain ⟨p, m, d, n⟩ := h.2 k
  exact ⟨p.symm, m.symm, d.symm, n.symm⟩

lemma sum_map_filter_of_zero {α : Type} (L : List α) (q : α → Bool) (f : α → Vec3)
    (h : ∀ p ∈ L, q p = false → f p = 0) :
    ((L.filter q).map f).sum = (L.map f).sum := by
  induction L with
  | nil => rfl
  | cons a L ih =>
    have ih2 := ih (fun p hp hq => h p (List.mem_cons_of_mem _ hp) hq)
    cases hqa : q a with
    | false =>
      rw [List.filter_cons_of_neg (by simp [hqa]), List.map_cons, List.sum_cons,
        h a (List.mem_cons_self _ _) hqa, zero_add, ih2]
    | true =>
      rw [List.filter_cons_of_pos (by simp [hqa]), List.map_cons, List.map_cons,
        List.sum_cons, List.sum_cons, ih2]

lemma pair_contrib_of_force_zero {G : ℝ} {bs : List PhysicsBody} {p : ℕ × ℕ}
    (h : pair_force G bs p.1 p.2 = 0) (k : ℕ) : pair_contrib G bs k p = 0 := by
  unfold pair_contrib
  rw [h]
  simp

lemma enum_eq_range_map {α : Type} (l : List α) (d : α) :
    l.enum = (List.range l.length).map (fun i => (i, l.getD i d)) := by
  apply List.ext_getElem
  · simp
  · intro i h1 h2
    have hi : i < l.length := by simpa using h1
    simp [List.getElem_enum, List.getD_eq_getElem l d hi, List.getElem?_eq_getElem hi]

lemma pts_getD (bodies : List PhysicsBody) (ns : List ℕ) (j : ℕ) (hj : j < ns.length) :
    (ns.map (fun k =>
      ((bodies.getD k default).position 0, (bodies.getD k default).position 1))).getD j (0, 0) =
      ((bodies.getD (ns.getD j 0) default).position 0,
        (bodies.getD (ns.getD j 0) default).position 1) := by
  rw [List.getD_eq_getElem _ _ (by simpa using hj), List.getElem_map,
    List.getD_eq_getElem _ _ hj]

lemma abs_le_hypot_left (a b : ℝ) : |a| ≤ hypot a b := by
  unfold hypot
  rw [← Real.sqrt_sq_eq_abs]
  exact Real.sqrt_le_sqrt (by nlinarith [sq_nonneg b])

lemma abs_le_hypot_right (a b : ℝ) : |b| ≤ hypot a b := by
  unfold hypot
  rw [← Real.sqrt_sq_eq_abs]
  exact Real.sqrt_le_sqrt (by nlinarith [sq_nonneg a])

lemma hypot_nonneg (a b : ℝ) : 0 ≤ hypot a b := Real.sqrt_nonneg _

lemma map_filter_ext {α β : Type} (l : List α) (p q : α → Bool) (f g : α → β)
    (hpq : ∀ a ∈ l, p a = q a) (hfg : ∀ a, f a = g a) :
    (l.filter p).map f = (l.filter q).map g := by
  rw [List.filter_congr' hpq]
  exact List.map_congr_left (fun a _ => hfg a)

lemma culled_pairs_eq_spec (bodies : List PhysicsBody) :
    culled_pairs bodies (non_star_indices bodies) = spec_culled_pairs_2d bodies := by
  simp only [culled_pairs, spec_culled_pairs_2d]
  congr 1
  funext idx
  simp only [quadtree_query]
  rw [enum_eq_range_map _ ((0 : ℝ), (0 : ℝ)), List.length_map, List.map_filter,
    List.map_filter, List.map_filter, List.map_map, List.filter_filter,
    List.filter_filter, List.filter_filter]
  apply map_filter_ext
  · intro j hjmem
    have hj : j < (non_star_indices bodies).length := List.mem_range.1 hjmem
    simp only [Function.comp]
    simp only [pts_getD bodies _ j hj]
    rw [← Bool.decide_and, ← Bool.decide_and, ← Bool.decide_and]
    refine decide_eq_decide.mpr ?_
    unfold dist2D
    constructor
    · rintro ⟨⟨hnd, hlt⟩, -⟩
      push_neg at hnd
      exact ⟨⟨lt_of_le_of_ne (hypot_nonneg _ _) (Ne.symm hnd.2), hnd.1⟩, hlt⟩
    · rintro ⟨⟨hd0, hdC⟩, hlt⟩
      have habs1 : |(bodies.getD ((non_star_indices bodies).getD j 0) default).position 0 -
          (bodies.getD ((non_star_indices bodies).getD idx 0) default).position 0| ≤
          CULL_DISTANCE_AU :=
        le_trans (abs_le_hypot_left _ _) hdC
      have habs2 : |(bodies.getD ((non_star_indices bodies).getD j 0) default).position 1 -
          (bodies.getD ((non_star_indices bodies).getD idx 0) default).position 1| ≤
          CULL_DISTANCE_AU :=
        le_trans (abs_le_hypot_right _ _) hdC
      rw [abs_le] at habs1 habs2
      refine ⟨⟨?_, hlt⟩, ?_, ?_, ?_, ?_⟩
      · rw [not_or]
        exact ⟨not_lt.2 hdC, ne_of_gt hd0⟩
      · linarith [habs1.1]
      · linarith [habs1.2]
      · linarith [habs2.1]
      · linarith [habs2.2]
  · intro a
    rfl

lemma pair_force_eq_zero_of_dist3D {G : ℝ} {bs : List PhysicsBody} {i j : ℕ}
    (h : dist3D bs i j = 0) : pair_force G bs i j = 0 := by
  unfold dist3D at h
  unfold pair_force
  rw [if_pos h]

lemma spec_culled_pairs_2d_nil {bodies : List PhysicsBody}
    (h : (non_star_indices bodies).length < 2) : spec_culled_pairs_2d bodies = [] := by
  simp only [spec_culled_pairs_2d]
  have h2 : (non_star_indices bodies).length = 0 ∨ (non_star_indices bodies).length = 1 := by
    omega
  rcases h2 with h0 | h1
  · rw [h0]
    rfl
  · rw [h1]
    rfl

lemma spec_culled_pairs_2d_congr {bs bs2 : List PhysicsBody} (h : EqStatic bs bs2) :
    spec_culled_pairs_2d bs = spec_culled_pairs_2d bs2 := by
  unfold spec_culled_pairs_2d
  rw [non_star_indices_congr h]
  simp only [dist2D_congr h]

lemma code_pairs_sum_eq_spec (s : System) (k : ℕ) :
    ((code_pairs s).map (pair_contrib s.gravitational_constant s.bodies k)).sum =
      spec_forces_2d s k := by
  have hEq0 := eqStatic_reset s.bodies
  unfold code_pairs spec_forces_2d
  rw [List.map_append, List.sum_append, List.map_append, List.sum_append]
  congr 1
  · rw [star_indices_congr (eqStatic_symm hEq0), non_star_indices_congr (eqStatic_symm hEq0)]
    unfold spec_star_pairs
    refine (sum_map_filter_of_zero _ _ _ ?_).symm
    intro p _ hq
    have hd : dist3D s.bodies p.1 p.2 = 0 := by
      by_contra hne
      rw [decide_eq_false_iff_not] at hq
      exact hq hne
    exact pair_contrib_of_force_zero (pair_force_eq_zero_of_dist3D hd) k
  · by_cases hns : (non_star_indices (s.bodies.map PhysicsBody.reset_force)).length < 2
    · rw [if_pos hns]
      have hlen2 : (non_star_indices s.bodies).length < 2 := by
        rw [non_star_indices_congr hEq0]
        exact hns
      rw [spec_culled_pairs_2d_nil hlen2]
    · rw [if_neg hns, culled_pairs_eq_spec (s.bodies.map PhysicsBody.reset_force),
        spec_culled_pairs_2d_congr (eqStatic_symm hEq0)]

lemma gravity_forces_eq_spec2d (s : System) :
    ∀ k, k < s.bodies.length →
      (s.compute_gravity.bodies.getD k default).force = spec_forces_2d s k := by
  intro k hk
  rw [(compute_gravity_getD s).2 k hk]
  exact code_pairs_sum_eq_spec s k

lemma sum_flatMap {α : Type} (l : List α) (f : α → List Vec3) :
    (l.flatMap f).sum = (l.map (fun a => (f a).sum)).sum := by
  induction l with
  | nil => rfl
  | cons a l ih => simp [List.flatMap_cons, List.sum_append, ih]

lemma sum_exchange {α β : Type} (l1 : List α) (l2 : List β) (g : α → β → Vec3) :
    (l1.map (fun a => (l2.map (g a)).sum)).sum =
      (l2.map (fun b => (l1.map (fun a => g a b)).sum)).sum := by
  induction l2 with
  | nil =>
    rw [List.map_nil, List.sum_nil]
    apply List.sum_eq_zero
    intro x hx
    obtain ⟨a, -, rfl⟩ := List.mem_map.1 hx
    rfl
  | cons b l2 ih =>
    have hsplit : (l1.map (fun a => ((b :: l2).map (g a)).sum)).sum =
        (l1.map (fun a => g a b + (l2.map (g a)).sum)).sum := rfl
    rw [hsplit, List.sum_map_add, ih, List.map_cons, List.sum_cons]

lemma sum_range_contrib (G : ℝ) (bs : List PhysicsBody) (n : ℕ) (p : ℕ × ℕ)
    (h1 : p.1 < n) (h2 : p.2 < n) (h12 : p.1 ≠ p.2) :
    ((List.range n).map (fun k => pair_contrib G bs k p)).sum = 0 := by
  have hsplit : ∀ k, pair_contrib G bs k p =
      (if k = p.1 then pair_force G bs p.1 p.2 else 0) +
      (if k = p.2 then -pair_force G bs p.1 p.2 else 0) := by
    intro k
    unfold pair_contrib
    by_cases e1 : k = p.1
    · rw [if_pos e1, if_pos e1, if_neg (by rw [e1]; exact h12), add_zero]
    · rw [if_neg e1, if_neg e1, zero_add]
  rw [List.map_congr_left (fun k _ => hsplit k), List.sum_map_add]
  have c1 : ((List.range n).map
      (fun k => if k = p.1 then pair_force G bs p.1 p.2 else 0)).sum =
      pair_force G bs p.1 p.2 := by
    have hconv : ((List.range n).map
        (fun k => if k = p.1 then pair_force G bs p.1 p.2 else 0)).sum =
        ∑ k in Finset.range n, (if k = p.1 then pair_force G bs p.1 p.2 else 0) := rfl
    rw [hconv, Finset.sum_ite_eq' (Finset.range n) p.1 (fun _ => pair_force G bs p.1 p.2),
      if_pos (Finset.mem_range.2 h1)]
  have c2 : ((List.range n).map
      (fun k => if k = p.2 then -pair_force G bs p.1 p.2 else 0)).sum =
      -pair_force G bs p.1 p.2 := by
    have hconv : ((List.range n).map
        (fun k => if k = p.2 then -pair_force G bs p.1 p.2 else 0)).sum =
        ∑ k in Finset.range n, (if k = p.2 then -pair_force G bs p.1 p.2 else 0) := rfl
    rw [hconv, Finset.sum_ite_eq' (Finset.range n) p.2 (fun _ => -pair_force G bs p.1 p.2),
      if_pos (Finset.mem_range.2 h2)]
  rw [c1, c2]
  exact add_neg_cancel _

lemma sum_map_ite_eq {l : List ℕ} (hl : l.Nodup) {k : ℕ} (hk : k ∈ l) (v : ℕ → Vec3) :
    (l.map (fun i => if k = i then v i else 0)).sum = v k := by
  induction l with
  | nil => cases hk
  | cons a l ih =>
    rw [List.map_cons, List.sum_cons]
    rcases List.mem_cons.1 hk with rfl | hmem
    · rw [if_pos rfl]
      have hz : (l.map (fun i => if k = i then v i else 0)).sum = 0 := by
        apply List.sum_eq_zero
        intro x hx
        obtain ⟨i, hi, rfl⟩ := List.mem_map.1 hx
        rw [if_neg (fun e => (List.nodup_cons.1 hl).1 (by rw [e]; exact hi))]
      rw [hz, add_zero]
    · have hka : k ≠ a := fun e => (List.nodup_cons.1 hl).1 (e ▸ hmem)
      rw [if_neg hka, zero_add, ih (List.nodup_cons.1 hl).2 hmem]

lemma star_indices_nodup (bodies : List PhysicsBody) : (star_indices bodies).Nodup :=
  (List.Pairwise.filter _ (List.pairwise_lt_range _)).imp (fun h => Nat.ne_of_lt h)

lemma code_pairs_valid (s : System) :
    ∀ p ∈ code_pairs s, p.1 < s.bodies.length ∧ p.2 < s.bodies.length ∧ p.1 ≠ p.2 := by
  intro p hp
  have hlen : (s.bodies.map PhysicsBody.reset_force).length = s.bodies.length :=
    List.length_map _ _
  unfold code_pairs at hp
  rcases List.mem_append.1 hp with hA | hB
  · obtain ⟨q1, q2, q3⟩ := star_pairs_valid _ p hA
    exact ⟨hlen ▸ q1, hlen ▸ q2, q3⟩
  · by_cases hns : (non_star_indices (s.bodies.map PhysicsBody.reset_force)).length < 2
    · rw [if_pos hns] at hB
      cases hB
    · rw [if_neg hns] at hB
      obtain ⟨q1, q2, q3⟩ := culled_pairs_valid p hB
      exact ⟨hlen ▸ q1, hlen ▸ q2, q3⟩

lemma compute_gravity_total_force (s : System) :
    ((List.range s.bodies.length).map
      (fun k => (s.compute_gravity.bodies.getD k default).force)).sum = 0 := by
  have hchar := compute_gravity_getD s
  have hrw : ∀ k ∈ List.range s.bodies.length,
      (fun k => (s.compute_gravity.bodies.getD k default).force) k =
      (fun k => ((code_pairs s).map
        (pair_contrib s.gravitational_constant s.bodies k)).sum) k := by
    intro k hk
    show (s.compute_gravity.bodies.getD k default).force = _
    rw [hchar.2 k (List.mem_range.1 hk)]
  rw [List.map_congr_left hrw, sum_exchange]
  apply List.sum_eq_zero
  intro x hx
  obtain ⟨p, hp, rfl⟩ := List.mem_map.1 hx
  obtain ⟨h1, h2, h12⟩ := code_pairs_valid s p hp
  exact sum_range_contrib s.gravitational_constant s.bodies s.bodies.length p h1 h2 h12

lemma mem_spec_culled_pairs_2d {bodies : List PhysicsBody} {p : ℕ × ℕ}
    (hp : p ∈ spec_culled_pairs_2d bodies) :
    p.1 ∈ non_star_indices bodies ∧ p.2 ∈ non_star_indices bodies := by
  simp only [spec_culled_pairs_2d, List.mem_flatMap, List.mem_map, List.mem_filter,
    List.mem_range] at hp
  obtain ⟨i, hi, j, ⟨⟨hj, -⟩, -⟩, rfl⟩ := hp
  exact ⟨getD_mem_of_lt hi, getD_mem_of_lt hj⟩

lemma star_force_eq (s : System) (k : ℕ) (hk : k < s.bodies.length)
    (hstar : is_star (s.bodies.getD k default) = true) :
    (s.compute_gravity.bodies.getD k default).force =
      ((non_star_indices s.bodies).map
        (fun j => pair_force s.gravitational_constant s.bodies k j)).sum := by
  rw [gravity_forces_eq_spec2d s k hk]
  unfold spec_forces_2d
  rw [List.map_append, List.sum_append]
  have hcull : ((spec_culled_pairs_2d s.bodies).map
      (pair_contrib s.gravitational_constant s.bodies k)).sum = 0 := by
    apply List.sum_eq_zero
    intro x hx
    obtain ⟨p, hp, rfl⟩ := List.mem_map.1 hx
    obtain ⟨hp1, hp2⟩ := mem_spec_culled_pairs_2d hp
    have h1 := (mem_non_star_indices hp1).2
    have h2 := (mem_non_star_indices hp2).2
    unfold pair_contrib
    rw [if_neg (fun e => by rw [e] at hstar; rw [hstar] at h1; simp at h1),
      if_neg (fun e => by rw [e] at hstar; rw [hstar] at h2; simp at h2)]
  rw [hcull, add_zero]
  unfold spec_star_pairs
  rw [sum_map_filter_of_zero _ _ _ (fun p _ hq => pair_contrib_of_force_zero
    (pair_force_eq_zero_of_dist3D (by rwa [decide_eq_false_iff_not, not_not] at hq)) k)]
  rw [List.map_flatMap, sum_flatMap]
  have hinner : ∀ i ∈ star_indices s.bodies,
      (fun i => (((non_star_indices s.bodies).map (fun j => (i, j))).map
        (pair_contrib s.gravitational_constant s.bodies k)).sum) i =
      (fun i => if k = i then ((non_star_indices s.bodies).map
        (fun j => pair_force s.gravitational_constant s.bodies k j)).sum else 0) i := by
    intro i _
    show (((non_star_indices s.bodies).map (fun j => (i, j))).map
        (pair_contrib s.gravitational_constant s.bodies k)).sum =
      (if k = i then ((non_star_indices s.bodies).map
        (fun j => pair_force s.gravitational_constant s.bodies k j)).sum else 0)
    rw [List.map_map]
    by_cases e : k = i
    · subst e
      rw [if_pos rfl]
      congr 1
      apply List.map_congr_left
      intro j hj
      have hjns := (mem_non_star_indices hj).2
      have hkj : k ≠ j := fun ej => by rw [ej] at hstar; rw [hstar] at hjns; simp at hjns
      show pair_contrib s.gravitational_constant s.bodies k (k, j) = _
      unfold pair_contrib
      rw [if_pos rfl]
    · rw [if_neg e]
      apply List.sum_eq_zero
      intro x hx
      obtain ⟨j, hj, rfl⟩ := List.mem_map.1 hx
      have hjns := (mem_non_star_indices hj).2
      have hkj : k ≠ j := fun ej => by rw [ej] at hstar; rw [hstar] at hjns; simp at hjns
      show pair_contrib s.gravitational_constant s.bodies k (i, j) = 0
      unfold pair_contrib
      rw [if_neg e, if_neg hkj]
  rw [List.map_congr_left hinner]
  have hkmem : k ∈ star_indices s.bodies :=
    List.mem_filter.2 ⟨List.mem_range.2 hk, hstar⟩
  exact sum_map_ite_eq (star_indices_nodup s.bodies) hkmem _

lemma physicsBody_eq {a b : PhysicsBody} (h1 : a.name = b.name) (h2 : a.mass = b.mass)
    (h3 : a.position = b.position) (h4 : a.velocity = b.velocity) (h5 : a.force = b.force)
    (h6 : a.metadata = b.metadata) : a = b := by
  cases a
  cases b
  simp_all

/-- Two body lists agree on the per-body data that `step` never changes:
name, mass and metadata. -/
def EqSkel (bs bs2 : List PhysicsBody) : Prop :=
  bs.length = bs2.length ∧ ∀ k : ℕ,
    (bs.getD k default).mass = (bs2.getD k default).mass ∧
    (bs.getD k default).metadata = (bs2.getD k default).metadata ∧
    (bs.getD k default).name = (bs2.getD k default).name

lemma eqSkel_refl (bs : List PhysicsBody) : EqSkel bs bs :=
  ⟨rfl, fun _ => ⟨rfl, rfl, rfl⟩⟩

lemma eqSkel_trans {a b c : List PhysicsBody} (h1 : EqSkel a b) (h2 : EqSkel b c) :
    EqSkel a c := by
  refine ⟨h1.1.trans h2.1, fun k => ?_⟩
  obtain ⟨m1, d1, n1⟩ := h1.2 k
  obtain ⟨m2, d2, n2⟩ := h2.2 k
  exact ⟨m1.trans m2, d1.trans d2, n1.trans n2⟩

lemma eqSkel_of_eqStatic {bs bs2 : List PhysicsBody} (h : EqStatic bs bs2) : EqSkel bs bs2 := by
  refine ⟨h.1, fun k => ?_⟩
  obtain ⟨-, m, d, n⟩ := h.2 k
  exact ⟨m, d, n⟩

lemma eqSkel_cons {o c : PhysicsBody} {r1 r2 : List PhysicsBody}
    (h : EqSkel (o :: r1) (c :: r2)) :
    (o.mass = c.mass ∧ o.metadata = c.metadata ∧ o.name = c.name) ∧ EqSkel r1 r2 := by
  constructor
  · have := h.2 0
    simpa using this
  · refine ⟨by simpa using h.1, fun k => ?_⟩
    have := h.2 (k + 1)
    simpa using this

lemma eqSkel_cons_of {o c : PhysicsBody} {r1 r2 : List PhysicsBody}
    (hh : o.mass = c.mass ∧ o.metadata = c.metadata ∧ o.name = c.name)
    (ht : EqSkel r1 r2) : EqSkel (o :: r1) (c :: r2) := by
  refine ⟨by simpa using ht.1, fun k => ?_⟩
  cases k with
  | zero => simpa using hh
  | succ k => simpa using ht.2 k

/-- State of a body after a successful `integrate(dt)` call. -/
noncomputable def integrate_ok_fun (dt : ℝ) (b : PhysicsBody) : PhysicsBody :=
  { b with
    velocity := b.velocity + dt • vdiv b.force b.mass
    position := b.position + dt • (b.velocity + dt • vdiv b.force b.mass) }

lemma integrate_ok {b : PhysicsBody} (dt : ℝ) (h : b.mass ≠ 0) :
    b.integrate dt = .ok (integrate_ok_fun dt b) := by
  unfold PhysicsBody.integrate PhysicsBody.acceleration integrate_ok_fun
  rw [if_neg h]

lemma integrate_err {b : PhysicsBody} (dt : ℝ) (h : b.mass = 0) :
    b.integrate dt = .error (.ZeroDivisionError "Cannot integrate body with zero mass.") := by
  unfold PhysicsBody.integrate PhysicsBody.acceleration
  rw [if_pos h]

lemma integrate_ok_fun_default (dt : ℝ) : integrate_ok_fun dt default = default := by
  have hv : vdiv (default : PhysicsBody).force (default : PhysicsBody).mass = 0 := by
    funext i
    show (0 : ℝ) / 0 = 0
    simp
  unfold integrate_ok_fun
  rw [hv]
  apply physicsBody_eq <;>
    simp [show (default : PhysicsBody).velocity = 0 from rfl,
      show (default : PhysicsBody).position = 0 from rfl]

lemma integrate_bodies_ok (dt : ℝ) (bs : List PhysicsBody) (h : ∀ b ∈ bs, b.mass ≠ 0) :
    integrate_bodies dt bs = (none, bs.map (integrate_ok_fun dt)) := by
  induction bs with
  | nil => rfl
  | cons b rest ih =>
    unfold integrate_bodies
    rw [integrate_ok dt (h b (List.mem_cons_self _ _)),
      ih (fun x hx => h x (List.mem_cons_of_mem _ hx))]
    rfl

lemma integrate_bodies_skel (dt : ℝ) (bs : List PhysicsBody) :
    EqSkel bs (integrate_bodies dt bs).2 := by
  induction bs with
  | nil => exact eqSkel_refl []
  | cons b rest ih =>
    unfold integrate_bodies
    cases hb : b.integrate dt with
    | error e => exact eqSkel_refl _
    | ok b2 =>
      have hshape : b.mass = b2.mass ∧ b.metadata = b2.metadata ∧ b.name = b2.name := by
        by_cases hm : b.mass = 0
        · rw [integrate_err dt hm] at hb
          cases hb
        · rw [integrate_ok dt hm] at hb
          cases hb
          exact ⟨rfl, rfl, rfl⟩
      exact eqSkel_cons_of hshape ih

lemma getD_default_of_ge {l : List PhysicsBody} {k : ℕ} (h : l.length ≤ k) :
    l.getD k default = default := by
  rw [getD_eq_getElem?, List.getElem?_eq_none_iff.2 h]
  rfl

lemma eqStatic_compute_gravity (s : System) : EqStatic s.bodies s.compute_gravity.bodies := by
  have h := compute_gravity_getD s
  refine ⟨h.1.symm, fun k => ?_⟩
  by_cases hk : k < s.bodies.length
  · rw [h.2 k hk]
    exact ⟨rfl, rfl, rfl, rfl⟩
  · rw [getD_default_of_ge (by omega), getD_default_of_ge (by rw [h.1]; omega)]
    exact ⟨rfl, rfl, rfl, rfl⟩

lemma compute_gravity_name (s : System) : s.compute_gravity.name = s.name := by
  unfold System.compute_gravity
  by_cases h : (s.bodies.map PhysicsBody.reset_force).isEmpty = true
  · rw [if_pos h]
  · rw [if_neg h]
    by_cases h2 : (non_star_indices (s.bodies.map PhysicsBody.reset_force)).length < 2
    · rw [if_pos h2]
    · rw [if_neg h2]

lemma compute_gravity_G (s : System) :
    s.compute_gravity.gravitational_constant = s.gravitational_constant := by
  unfold System.compute_gravity
  by_cases h : (s.bodies.map PhysicsBody.reset_force).isEmpty = true
  · rw [if_pos h]
  · rw [if_neg h]
    by_cases h2 : (non_star_indices (s.bodies.map PhysicsBody.reset_force)).length < 2
    · rw [if_pos h2]
    · rw [if_neg h2]

lemma step_name (s : System) (dt : ℝ) : (s.step dt).2.name = s.name := by
  unfold System.step
  by_cases h : s.bodies.isEmpty = true
  · rw [if_pos h]
  · rw [if_neg h]
    exact compute_gravity_name s

lemma step_G (s : System) (dt : ℝ) :
    (s.step dt).2.gravitational_constant = s.gravitational_constant := by
  unfold System.step
  by_cases h : s.bodies.isEmpty = true
  · rw [if_pos h]
  · rw [if_neg h]
    exact compute_gravity_G s

lemma step_skel (s : System) (dt : ℝ) : EqSkel s.bodies (s.step dt).2.bodies := by
  unfold System.step
  by_cases h : s.bodies.isEmpty = true
  · rw [if_pos h]
    exact eqSkel_refl _
  · rw [if_neg h]
    exact eqSkel_trans (eqSkel_of_eqStatic (eqStatic_compute_gravity s))
      (integrate_bodies_skel dt s.compute_gravity.bodies)

lemma masses_nonzero_of_eqSkel {bs bs2 : List PhysicsBody} (h : EqSkel bs bs2)
    (hm : ∀ b ∈ bs, b.mass ≠ 0) : ∀ b ∈ bs2, b.mass ≠ 0 := by
  intro b hb
  obtain ⟨k, hk, rfl⟩ := List.getElem_of_mem hb
  have hk2 : k < bs.length := by rw [h.1]; exact hk
  rw [← List.getD_eq_getElem bs2 default hk, ← (h.2 k).1]
  apply hm
  rw [List.getD_eq_getElem bs default hk2]
  exact List.getElem_mem hk2

lemma step_ok (s : System) (dt : ℝ) (h : ∀ b ∈ s.bodies, b.mass ≠ 0) :
    (s.step dt).1 = none ∧
    (s.step dt).2 = { s.compute_gravity with
      bodies := s.compute_gravity.bodies.map (integrate_ok_fun dt) } ∨
    s.bodies.isEmpty = true ∧ (s.step dt).1 = none ∧ (s.step dt).2 = s := by
  simp only [System.step]
  by_cases he : s.bodies.isEmpty = true
  · rw [if_pos he]
    exact Or.inr ⟨he, rfl, rfl⟩
  · rw [if_neg he]
    have hm2 : ∀ b ∈ s.compute_gravity.bodies, b.mass ≠ 0 :=
      masses_nonzero_of_eqSkel (eqSkel_of_eqStatic (eqStatic_compute_gravity s)) h
    rw [integrate_bodies_ok dt _ hm2]
    exact Or.inl ⟨rfl, rfl⟩

lemma sum_map_smul {α : Type} (l : List α) (c : ℝ) (f : α → Vec3) :
    (l.map (fun a => c • f a)).sum = c • (l.map f).sum := by
  induction l with
  | nil => simp
  | cons a l ih => simp [ih, smul_add]

lemma sum_map_eq_range (l : List PhysicsBody) (f : PhysicsBody → Vec3) :
    (l.map f).sum = ((List.range l.length).map (fun k => f (l.getD k default))).sum := by
  congr 1
  apply List.ext_getElem
  · simp
  · intro i h1 h2
    have hi : i < l.length := by simpa using h1
    simp [List.getD_eq_getElem l default hi, List.getElem?_eq_getElem hi]

lemma momentum_step_term (m : ℝ) (hm : m ≠ 0) (v f : Vec3) (dt : ℝ) :
    m • (v + dt • vdiv f m) = m • v + dt • f := by
  funext i
  show m * (v i + dt * (f i / m)) = m * v i + dt * f i
  field_simp
  ring

lemma step_momentum (s : System) (dt : ℝ) (h : ∀ b ∈ s.bodies, b.mass ≠ 0) :
    (s.step dt).1 = none ∧ (s.step dt).2.total_momentum = s.total_momentum := by
  rcases step_ok s dt h with ⟨h1, h2⟩ | ⟨-, h1, h2⟩
  · refine ⟨h1, ?_⟩
    rw [h2]
    show ((s.compute_gravity.bodies.map (integrate_ok_fun dt)).map
      (fun b => b.mass • b.velocity)).sum = _
    rw [List.map_map]
    have hmem : ∀ b ∈ s.compute_gravity.bodies,
        ((fun b => b.mass • b.velocity) ∘ integrate_ok_fun dt) b =
        (fun b => b.mass • b.velocity + dt • b.force) b := by
      intro b hb
      have hm : b.mass ≠ 0 := masses_nonzero_of_eqSkel
        (eqSkel_of_eqStatic (eqStatic_compute_gravity s)) h b hb
      show b.mass • (b.velocity + dt • vdiv b.force b.mass) = b.mass • b.velocity + dt • b.force
      exact momentum_step_term b.mass hm b.velocity b.force dt
    rw [List.map_congr_left hmem, List.sum_map_add]
    have hforce : (s.compute_gravity.bodies.map (fun b => b.force)).sum = 0 := by
      rw [sum_map_eq_range, (compute_gravity_getD s).1]
      exact compute_gravity_total_force s
    have hsmul : (s.compute_gravity.bodies.map (fun b => dt • b.force)).sum =
        dt • (s.compute_gravity.bodies.map (fun b => b.force)).sum :=
      sum_map_smul _ dt _
    rw [hsmul, hforce, smul_zero, add_zero]
    unfold System.total_momentum
    rw [sum_map_eq_range, (compute_gravity_getD s).1, sum_map_eq_range s.bodies]
    congr 1
    apply List.map_congr_left
    intro k hk
    rw [(compute_gravity_getD s).2 k (List.mem_range.1 hk)]
  · rw [h2]
    exact ⟨h1, rfl⟩

lemma stepN_momentum (s : System) (dt : ℝ) (h : ∀ b ∈ s.bodies, b.mass ≠ 0) (N : ℕ) :
    (s.stepN dt N).1 = none ∧ (s.stepN dt N).2.total_momentum = s.total_momentum ∧
    EqSkel s.bodies (s.stepN dt N).2.bodies := by
  induction N with
  | zero => exact ⟨rfl, rfl, eqSkel_refl _⟩
  | succ n ih =>
    obtain ⟨h1, h2, h3⟩ := ih
    have hm2 : ∀ b ∈ (s.stepN dt n).2.bodies, b.mass ≠ 0 := masses_nonzero_of_eqSkel h3 h
    obtain ⟨q1, q2⟩ := step_momentum (s.stepN dt n).2 dt hm2
    have hunfold : s.stepN dt (n + 1) = (s.stepN dt n).2.step dt := by
      simp only [System.stepN, h1]
    rw [hunfold]
    exact ⟨q1, q2.trans h2, eqSkel_trans h3 (step_skel _ dt)⟩

lemma integrate_err_shape {b : PhysicsBody} {dt : ℝ} {e : PyError}
    (h : b.integrate dt = .error e) :
    e = .ZeroDivisionError "Cannot integrate body with zero mass." := by
  by_cases hm : b.mass = 0
  · rw [integrate_err dt hm] at h
    cases h
    rfl
  · rw [integrate_ok dt hm] at h
    cases h

lemma integrate_bodies_err_shape {dt : ℝ} {bs : List PhysicsBody} {e : PyError}
    (h : (integrate_bodies dt bs).1 = some e) :
    e = .ZeroDivisionError "Cannot integrate body with zero mass." := by
  induction bs with
  | nil => cases h
  | cons b rest ih =>
    unfold integrate_bodies at h
    cases hb : b.integrate dt with
    | error e2 =>
      rw [hb] at h
      cases h
      exact integrate_err_shape hb
    | ok b2 =>
      rw [hb] at h
      exact ih h

lemma step_err_shape {s : System} {dt : ℝ} {e : PyError}
    (h : (s.step dt).1 = some e) :
    e = .ZeroDivisionError "Cannot integrate body with zero mass." := by
  unfold System.step at h
  by_cases he : s.bodies.isEmpty = true
  · rw [if_pos he] at h
    cases h
  · rw [if_neg he] at h
    exact integrate_bodies_err_shape h

lemma sample_loop_err_shape (dt : ℝ) (n : ℕ) :
    ∀ (idx : ℕ) (s : System) (acc : List Sample) (e : PyError),
      (sample_loop dt n idx s acc).1 = some e →
      e = .ZeroDivisionError "Cannot integrate body with zero mass." := by
  induction n with
  | zero =>
    intro idx s acc e h
    cases h
  | succ n ih =>
    intro idx s acc e h
    simp only [sample_loop] at h
    cases hstep : (s.step dt).1 with
    | some e2 =>
      rw [hstep] at h
      cases h
      exact step_err_shape hstep
    | none =>
      rw [hstep] at h
      exact ih _ _ _ _ h

lemma sample_loop_skel (dt : ℝ) (n : ℕ) :
    ∀ (idx : ℕ) (s : System) (acc : List Sample),
      EqSkel s.bodies ((sample_loop dt n idx s acc).2.2).bodies ∧
      ((sample_loop dt n idx s acc).2.2).name = s.name ∧
      ((sample_loop dt n idx s acc).2.2).gravitational_constant = s.gravitational_constant := by
  induction n with
  | zero =>
    intro idx s acc
    exact ⟨eqSkel_refl _, rfl, rfl⟩
  | succ n ih =>
    intro idx s acc
    simp only [sample_loop]
    cases hstep : (s.step dt).1 with
    | some e =>
      exact ⟨eqSkel_trans (step_skel s dt) (eqSkel_refl _), step_name s dt, step_G s dt⟩
    | none =>
      obtain ⟨q1, q2, q3⟩ := ih (idx + 1) (s.step dt).2
        (acc ++ [(s.step dt).2.capture_sample ((idx : ℝ) * dt)])
      exact ⟨eqSkel_trans (step_skel s dt) q1, q2.trans (step_name s dt),
        q3.trans (step_G s dt)⟩

lemma sample_loop_ok (dt : ℝ) (n : ℕ) :
    ∀ (idx : ℕ) (s : System) (acc : List Sample), (∀ b ∈ s.bodies, b.mass ≠ 0) →
    ∃ (ts : List Sample) (sf : System),
      sample_loop dt n idx s acc = (none, acc ++ ts, sf) ∧
      ts.length = n ∧
      ∀ k (hk : k < ts.length), (ts.get ⟨k, hk⟩).t = ((idx + k : ℕ) : ℝ) * dt := by
  induction n with
  | zero =>
    intro idx s acc _
    refine ⟨[], s, ?_, rfl, fun k hk => absurd hk (by simp)⟩
    rw [List.append_nil]
    rfl
  | succ n ih =>
    intro idx s acc hmass
    have hstep : (s.step dt).1 = none := (step_momentum s dt hmass).1
    have hmass2 : ∀ b ∈ (s.step dt).2.bodies, b.mass ≠ 0 :=
      masses_nonzero_of_eqSkel (step_skel s dt) hmass
    obtain ⟨ts', sf, heq, hlen, htimes⟩ := ih (idx + 1) (s.step dt).2
      (acc ++ [(s.step dt).2.capture_sample ((idx : ℝ) * dt)]) hmass2
    refine ⟨(s.step dt).2.capture_sample ((idx : ℝ) * dt) :: ts', sf, ?_, by simp [hlen], ?_⟩
    · simp only [sample_loop]
      rw [hstep, heq, List.append_assoc]
      rfl
    · intro k hk
      cases k with
      | zero =>
        show ((s.step dt).2.capture_sample ((idx : ℝ) * dt)).t = ((idx + 0 : ℕ) : ℝ) * dt
        simp [System.capture_sample]
      | succ k =>
        have hk' : k < ts'.length := Nat.lt_of_succ_lt_succ (by simpa using hk)
        have hts := htimes k hk'
        show (ts'.get ⟨k, hk'⟩).t = _
        rw [hts]
        have harith : idx + 1 + k = idx + (k + 1) := by omega
        rw [harith]

lemma restore_state_eq {orig cur : List PhysicsBody} (h : EqSkel orig cur) :
    restore_state (orig.map (fun b => (b.position, b.velocity))) cur =
      orig.map (fun b => { b with force := 0 }) := by
  induction orig generalizing cur with
  | nil =>
    have hc : cur = [] := List.length_eq_zero.1 h.1.symm
    subst hc
    rfl
  | cons o r1 ih =>
    cases cur with
    | nil => exact absurd h.1 (by simp)
    | cons c r2 =>
      obtain ⟨⟨hm, hd, hn⟩, ht⟩ := eqSkel_cons h
      show List.zipWith _ ((o.position, o.velocity) :: r1.map (fun b => (b.position, b.velocity)))
          (c :: r2) = _
      rw [List.zipWith_cons_cons, List.map_cons]
      congr 1
      · apply physicsBody_eq
        · exact hn.symm
        · exact hm.symm
        · rfl
        · rfl
        · rfl
        · exact hd.symm
      · exact ih ht

lemma system_eq {a b : System} (h1 : a.name = b.name)
    (h2 : a.gravitational_constant = b.gravitational_constant)
    (h3 : a.bodies = b.bodies) : a = b := by
  cases a
  cases b
  simp_all

lemma sample_positions_restores (s : System) (D R : ℝ) (hD : 0 < D) (hR : 0 < R) :
    (s.sample_positions D R).2 =
      { s with bodies := s.bodies.map (fun b => { b with force := 0 }) } := by
  simp only [System.sample_positions]
  rw [if_neg (not_le.2 hR), if_neg (not_le.2 hD)]
  by_cases he : s.bodies.isEmpty = true
  · rw [if_pos he]
    have hbe : s.bodies = [] := List.isEmpty_iff.1 he
    apply system_eq
    · rfl
    · rfl
    · show s.bodies = _
      rw [hbe]
      rfl
  · rw [if_neg he]
    obtain ⟨hskel, hname, hG⟩ := sample_loop_skel (1 / R)
      (max 1 (Int.ceil (D * R)).toNat) 1 s [s.capture_sample 0]
    cases hr : (sample_loop (1 / R) (max 1 (Int.ceil (D * R)).toNat) 1 s
        [s.capture_sample 0]).1 with
    | some e =>
      exact system_eq hname hG (restore_state_eq hskel)
    | none =>
      exact system_eq hname hG (restore_state_eq hskel)

lemma sample_positions_invalid_state (s : System) (D R : ℝ) (h : D ≤ 0 ∨ R ≤ 0) :
    (s.sample_positions D R).2 = s ∧
    ∃ msg, (s.sample_positions D R).1 = .error (.ValueError msg) := by
  unfold System.sample_positions
  by_cases hR : R ≤ 0
  · rw [if_pos hR]
    exact ⟨rfl, _, rfl⟩
  · rw [if_neg hR, if_pos (h.resolve_right hR)]
    exact ⟨rfl, _, rfl⟩

lemma sample_positions_empty (s : System) (D R : ℝ) (hD : 0 < D) (hR : 0 < R)
    (he : s.bodies = []) : s.sample_positions D R = (.ok [], s) := by
  unfold System.sample_positions
  rw [if_neg (not_le.2 hR), if_neg (not_le.2 hD), if_pos (by rw [he]; rfl)]

lemma sample_positions_no_invalid (s : System) (D R : ℝ) (hD : 0 < D) (hR : 0 < R) :
    ∀ msg, (s.sample_positions D R).1 ≠ .error (.ValueError msg) := by
  intro msg hmsg
  simp only [System.sample_positions] at hmsg
  rw [if_neg (not_le.2 hR), if_neg (not_le.2 hD)] at hmsg
  by_cases he : s.bodies.isEmpty = true
  · rw [if_pos he] at hmsg
    cases hmsg
  · rw [if_neg he] at hmsg
    cases hr : (sample_loop (1 / R) (max 1 (Int.ceil (D * R)).toNat) 1 s
        [s.capture_sample 0]).1 with
    | some e =>
      rw [hr] at hmsg
      have hez := sample_loop_err_shape (1 / R) _ _ _ _ _ hr
      rw [hez] at hmsg
      cases hmsg
    | none =>
      rw [hr] at hmsg
      cases hmsg

lemma sample_positions_ok (s : System) (D R : ℝ) (hD : 0 < D) (hR : 0 < R)
    (hne : s.bodies ≠ []) (hmass : ∀ b ∈ s.bodies, b.mass ≠ 0) :
    ∃ samples : List Sample,
      (s.sample_positions D R).1 = .ok samples ∧
      samples.length = (Int.ceil (D * R)).toNat + 1 ∧
      (∀ k (hk : k < samples.length), (samples.get ⟨k, hk⟩).t = (k : ℝ) * (1 / R)) ∧
      samples.head? = some (s.capture_sample 0) := by
  simp only [System.sample_positions]
  rw [if_neg (not_le.2 hR), if_neg (not_le.2 hD),
    if_neg (by simpa [List.isEmpty_iff] using hne)]
  obtain ⟨ts, sf, heq, hlen, htimes⟩ := sample_loop_ok (1 / R)
    (max 1 (Int.ceil (D * R)).toNat) 1 s [s.capture_sample 0] hmass
  rw [heq]
  have hsteps : max 1 (Int.ceil (D * R)).toNat = (Int.ceil (D * R)).toNat := by
    have hpos : 0 < Int.ceil (D * R) := Int.ceil_pos.2 (mul_pos hD hR)
    omega
  refine ⟨[s.capture_sample 0] ++ ts, rfl, ?_, ?_, ?_⟩
  · simp [hlen, hsteps, Nat.add_comm]
  · intro k hk
    cases k with
    | zero =>
      show (s.capture_sample 0).t = _
      simp [System.capture_sample]
    | succ k =>
      have hk' : k < ts.length := by
        have := hk
        simp at this
        omega
      have hts := htimes k hk'
      show (ts.get ⟨k, hk'⟩).t = _
      rw [hts]
      have harith : 1 + k = k + 1 := by omega
      rw [harith]
  · rfl

instance : Inhabited SampleBodyRef := ⟨⟨"", 0, 0⟩⟩

instance : Inhabited LiveBody := ⟨⟨"", 0, 0⟩⟩

lemma getD_set_ne {α : Type} (l : List α) (i k : ℕ) (v d : α) (h : i ≠ k) :
    (l.set i v).getD k d = l.getD k d := by
  rw [List.getD, List.getD, List.get?_eq_getElem?, List.get?_eq_getElem?,
    List.getElem?_set_ne h]

lemma getD_append_left {α : Type} (l l2 : List α) (i : ℕ) (d : α) (h : i < l.length) :
    (l ++ l2).getD i d = l.getD i d := by
  rw [List.getD_eq_getElem _ _ (by simp; omega), List.getD_eq_getElem _ _ h,
    List.getElem_append_left]

lemma getD_concat_length {α : Type} (l : List α) (x d : α) :
    (l ++ [x]).getD l.length d = x := by
  have h : l.length < (l ++ [x]).length := by simp
  rw [List.getD_eq_getElem _ _ h]
  exact List.getElem_concat_length l x l.length rfl h

lemma resolveMeta_writePos_writeMeta (h : Heap) (rp rm : ℕ) (v : Vec3)
    (m : List (String × MetaValue)) :
    ((h.writePos rp v).writeMeta rm m).resolveMeta = h.resolveMeta := by
  funext x
  cases x <;> rfl

lemma capture_bodies_heap_main (live : List LiveBody) :
    ∀ (h : Heap),
    (∀ b ∈ live, b.posRef < h.posCells.length ∧ b.metaRef < h.metaCells.length) →
    (capture_bodies_heap h live).2.length = live.length ∧
    h.posCells.length ≤ (capture_bodies_heap h live).1.posCells.length ∧
    h.metaCells.length ≤ (capture_bodies_heap h live).1.metaCells.length ∧
    (capture_bodies_heap h live).1.listCells = h.listCells ∧
    (∀ i, i < h.posCells.length →
      (capture_bodies_heap h live).1.posCells.getD i 0 = h.posCells.getD i 0) ∧
    (∀ i, i < h.metaCells.length →
      (capture_bodies_heap h live).1.metaCells.getD i [] = h.metaCells.getD i []) ∧
    (∀ sb ∈ (capture_bodies_heap h live).2,
      h.posCells.length ≤ sb.posRef ∧ h.metaCells.length ≤ sb.metaRef) ∧
    (∀ k, k < live.length →
      ((capture_bodies_heap h live).2.getD k default).name = (live.getD k default).name ∧
      (capture_bodies_heap h live).1.readSampleBody
          ((capture_bodies_heap h live).2.getD k default) =
        (h.posCells.getD (live.getD k default).posRef 0,
          h.metaCells.getD (live.getD k default).metaRef [])) := by
  induction live with
  | nil =>
    intro h _
    exact ⟨rfl, le_refl _, le_refl _, rfl, fun i _ => rfl, fun i _ => rfl,
      fun sb hsb => absurd hsb (by simp [capture_bodies_heap]),
      fun k hk => absurd hk (by simp)⟩
  | cons b rest ih =>
    intro h hwf
    obtain ⟨hb1, hb2⟩ := hwf b (List.mem_cons_self _ _)
    have hwfr : ∀ x ∈ rest,
        x.posRef < (⟨h.posCells ++ [h.posCells.getD b.posRef 0], h.metaCells ++ [h.metaCells.getD b.metaRef []], h.listCells⟩ : Heap).posCells.length ∧
        x.metaRef < (⟨h.posCells ++ [h.posCells.getD b.posRef 0], h.metaCells ++ [h.metaCells.getD b.metaRef []], h.listCells⟩ : Heap).metaCells.length := by
      intro x hx
      obtain ⟨q1, q2⟩ := hwf x (List.mem_cons_of_mem _ hx)
      constructor
      · show x.posRef < (h.posCells ++ _).length
        simp
        omega
      · show x.metaRef < (h.metaCells ++ _).length
        simp
        omega
    obtain ⟨i1, i2, i3, iL, i4, i5, i6, i7⟩ := ih
      ⟨h.posCells ++ [h.posCells.getD b.posRef 0], h.metaCells ++ [h.metaCells.getD b.metaRef []], h.listCells⟩ hwfr
    have hplen : h.posCells.length ≤ (h.posCells ++ [h.posCells.getD b.posRef 0]).length := by
      simp
    have hmlen : h.metaCells.length ≤ (h.metaCells ++ [h.metaCells.getD b.metaRef []]).length := by
      simp
    have heq : capture_bodies_heap h (b :: rest) =
        ((capture_bodies_heap
            ⟨h.posCells ++ [h.posCells.getD b.posRef 0], h.metaCells ++ [h.metaCells.getD b.metaRef []], h.listCells⟩ rest).1,
          ({ name := b.name, posRef := h.posCells.length, metaRef := h.metaCells.length } : SampleBodyRef) ::
            (capture_bodies_heap
              ⟨h.posCells ++ [h.posCells.getD b.posRef 0], h.metaCells ++ [h.metaCells.getD b.metaRef []], h.listCells⟩ rest).2) :=
      rfl
    rw [heq]
    refine ⟨by rw [List.length_cons, List.length_cons, i1], le_trans hplen i2,
      le_trans hmlen i3, iL, ?_, ?_, ?_, ?_⟩
    · intro i hi
      rw [i4 i (lt_of_lt_of_le hi hplen), getD_append_left _ _ _ _ hi]
    · intro i hi
      rw [i5 i (lt_of_lt_of_le hi hmlen), getD_append_left _ _ _ _ hi]
    · intro sb hsb
      rcases List.mem_cons.1 hsb with rfl | hmem
      · exact ⟨le_refl _, le_refl _⟩
      · obtain ⟨q1, q2⟩ := i6 sb hmem
        exact ⟨le_trans hplen q1, le_trans hmlen q2⟩
    · intro k hk
      cases k with
      | zero =>
        refine ⟨rfl, ?_⟩
        show ((capture_bodies_heap
            ⟨h.posCells ++ [h.posCells.getD b.posRef 0], h.metaCells ++ [h.metaCells.getD b.metaRef []], h.listCells⟩
            rest).1.posCells.getD h.posCells.length 0,
          (capture_bodies_heap
            ⟨h.posCells ++ [h.posCells.getD b.posRef 0], h.metaCells ++ [h.metaCells.getD b.metaRef []], h.listCells⟩
            rest).1.metaCells.getD h.metaCells.length []) = _
        rw [i4 h.posCells.length (by simp), i5 h.metaCells.length (by simp)]
        show ((h.posCells ++ [h.posCells.getD b.posRef 0]).getD h.posCells.length 0,
          (h.metaCells ++ [h.metaCells.getD b.metaRef []]).getD h.metaCells.length []) = _
        rw [getD_concat_length, getD_concat_length]
        rfl
      | succ k =>
        have hk2 : k < rest.length := by simpa using hk
        obtain ⟨q1, q2⟩ := i7 k hk2
        refine ⟨q1, ?_⟩
        show (capture_bodies_heap
            ⟨h.posCells ++ [h.posCells.getD b.posRef 0], h.metaCells ++ [h.metaCells.getD b.metaRef []], h.listCells⟩
            rest).1.readSampleBody
          ((capture_bodies_heap
            ⟨h.posCells ++ [h.posCells.getD b.posRef 0], h.metaCells ++ [h.metaCells.getD b.metaRef []], h.listCells⟩
            rest).2.getD k default) = _
        rw [q2]
        obtain ⟨w1, w2⟩ := hwf (rest.getD k default)
          (List.mem_cons_of_mem _ (by
            rw [List.getD_eq_getElem rest default hk2]
            exact List.getElem_mem hk2))
        show ((h.posCells ++ [h.posCells.getD b.posRef 0]).getD (rest.getD k default).posRef 0,
          (h.metaCells ++ [h.metaCells.getD b.metaRef []]).getD (rest.getD k default).metaRef []) = _
        rw [getD_append_left _ _ _ _ w1, getD_append_left _ _ _ _ w2]
        rfl

/-- Empty system used as a concrete input. -/
noncomputable def sysEmpty : System :=
  { name := "empty", gravitational_constant := 1, bodies := [] }

/-- Single non-star body of unit mass at the origin. -/
noncomputable def bodyA : PhysicsBody :=
  { name := "a", mass := 1, position := v3 0 0 0, velocity := v3 0 0 0,
    force := v3 0 0 0, metadata := [] }

/-- One-body system used as a concrete input. -/
noncomputable def sysOne : System :=
  { name := "one", gravitational_constant := 1, bodies := [bodyA] }

/-- Body carrying a nonzero accumulated force (such a state is reachable:
`step` leaves the computed forces in place after integrating). -/
noncomputable def bodyF : PhysicsBody :=
  { name := "f", mass := 1, position := v3 0 0 0, velocity := v3 0 0 0,
    force := v3 1 0 0, metadata := [] }

/-- System holding `bodyF`. -/
noncomputable def sysF : System :=
  { name := "forced", gravitational_constant := 1, bodies := [bodyF] }

/-- Body of mass 2 with an accumulated force, for acceleration evaluation. -/
noncomputable def bodyW : PhysicsBody :=
  { name := "w", mass := 2, position := v3 0 0 0, velocity := v3 0 0 0,
    force := v3 4 0 0, metadata := [] }

/-- C8: `acceleration()` fails with the `ZeroDivisionError` (the spec's
InvalidState error) exactly when the mass is zero; for nonzero mass it
returns the accumulated force divided componentwise by the mass without
raising, and `integrate(dt)`, which calls it, propagates the same error for
a zero-mass body. -/
theorem C8_acceleration (b : PhysicsBody) (dt : ℝ) :
    (b.acceleration = .error (.ZeroDivisionError "Cannot integrate body with zero mass.") ↔
      b.mass = 0) ∧
    (b.mass ≠ 0 → b.acceleration = .ok (vdiv b.force b.mass)) ∧
    (b.mass = 0 → b.integrate dt =
      .error (.ZeroDivisionError "Cannot integrate body with zero mass.")) := by
  refine ⟨⟨?_, ?_⟩, ?_, ?_⟩
  · intro h
    by_contra hm
    have hok : b.acceleration = .ok (vdiv b.force b.mass) := by
      unfold PhysicsBody.acceleration
      rw [if_neg hm]
    rw [hok] at h
    cases h
  · intro hm
    unfold PhysicsBody.acceleration
    rw [if_pos hm]
  · intro hm
    unfold PhysicsBody.acceleration
    rw [if_neg hm]
  · intro hm
    exact integrate_err dt hm

/-- C8 witness: the body `bodyW` of mass 2 has a nonzero mass and its
acceleration is its force divided by its mass. -/
theorem C8_acceleration_witness :
    bodyW.mass ≠ 0 ∧ bodyW.acceleration = .ok (vdiv bodyW.force bodyW.mass) :=
  ⟨by norm_num [bodyW], (C8_acceleration bodyW 1).2.1 (by norm_num [bodyW])⟩

/-- C9: `integrate(dt)` is semi-implicit Euler in exactly the coded order:
the velocity is updated first to `velocity + acceleration()*dt`, and the
position update then uses that already-updated velocity (the same
`velocity + dt • vdiv force mass` term appears inside the position field),
never the pre-update velocity. -/
theorem C9_semi_implicit_euler (b : PhysicsBody) (dt : ℝ) (h : b.mass ≠ 0) :
    b.integrate dt = .ok { b with
      velocity := b.velocity + dt • vdiv b.force b.mass
      position := b.position + dt • (b.velocity + dt • vdiv b.force b.mass) } :=
  integrate_ok dt h

/-- C9 witness: evaluation of the theorem at the concrete body `bodyW` of
nonzero mass with `dt = 1`. -/
theorem C9_semi_implicit_euler_witness :
    bodyW.mass ≠ 0 ∧ bodyW.integrate 1 = .ok { bodyW with
      velocity := bodyW.velocity + (1 : ℝ) • vdiv bodyW.force bodyW.mass
      position := bodyW.position + (1 : ℝ) • (bodyW.velocity + (1 : ℝ) • vdiv bodyW.force bodyW.mass) } :=
  ⟨by norm_num [bodyW], C9_semi_implicit_euler bodyW 1 (by norm_num [bodyW])⟩

/-- Two systems built with different constructor arguments (different
names, gravitational constants and body lists), used to exhibit that the
culling cutoff is not among the constructor's degrees of freedom. -/
noncomputable def sysC5a : System :=
  { name := "cfgA", gravitational_constant := 1, bodies := [] }

/-- Second differently-configured system for the cutoff comparison. -/
noncomputable def sysC5b : System :=
  { name := "cfgB", gravitational_constant := 2, bodies := [bodyA] }

/-- C5 counterexample: two System instances built with different values for
every constructor parameter still cull with the same cutoff — the module
constant `CULL_DISTANCE_AU` — because `System.__init__` accepts no cutoff
argument and `_compute_gravity` reads the module constant; no two instances
with different cutoffs exist. -/
theorem C5_counterexample :
    sysC5a.gravitational_constant ≠ sysC5b.gravitational_constant ∧
    sysC5a.name ≠ sysC5b.name ∧
    sysC5a.bodies ≠ sysC5b.bodies ∧
    sysC5a.cull_cutoff = CULL_DISTANCE_AU ∧
    sysC5b.cull_cutoff = CULL_DISTANCE_AU := by
  refine ⟨by norm_num [sysC5a, sysC5b], by simp [sysC5a, sysC5b], by simp [sysC5a, sysC5b],
    rfl, rfl⟩

/-- C5 (amended): the culling cutoff used by `_compute_gravity` is the
module-level constant `CULL_DISTANCE_AU = 1.0`; it is not a constructor
parameter of `System`, and every two instances use the same cutoff. -/
theorem C5_cutoff_is_module_constant (s1 s2 : System) :
    s1.cull_cutoff = s2.cull_cutoff ∧ s1.cull_cutoff = CULL_DISTANCE_AU :=
  ⟨rfl, rfl⟩

/-- C1 counterexample: for the System with zero bodies and valid arguments
`duration = 1`, `rate = 1`, `sample_positions` returns the empty sample
list, not the `ceil(D*R) + 1 = 2` samples the claim promises for every
System. -/
theorem C1_counterexample :
    (sysEmpty.sample_positions 1 1).1 = .ok [] ∧
    (List.length ([] : List Sample) ≠ (Int.ceil ((1 : ℝ) * 1)).toNat + 1) := by
  constructor
  · rw [sample_positions_empty sysEmpty 1 1 one_pos one_pos rfl]
  · simp

/-- C1 (amended): for every System with at least one body, every body of
nonzero mass, and every `duration D > 0`, `rate R > 0`, `sample_positions`
returns exactly `ceil(D*R) + 1` samples, the `i`-th carrying time
`t = i * (1/R)`, and the first is the snapshot of the pre-call state taken
at `t = 0` before any step. -/
theorem C1_sample_count (s : System) (D R : ℝ) (hD : 0 < D) (hR : 0 < R)
    (hne : s.bodies ≠ []) (hmass : ∀ b ∈ s.bodies, b.mass ≠ 0) :
    ∃ samples : List Sample,
      (s.sample_positions D R).1 = .ok samples ∧
      samples.length = (Int.ceil (D * R)).toNat + 1 ∧
      (∀ k (hk : k < samples.length), (samples.get ⟨k, hk⟩).t = (k : ℝ) * (1 / R)) ∧
      samples.head? = some (s.capture_sample 0) :=
  sample_positions_ok s D R hD hR hne hmass

/-- C1 witness: the amended theorem applied to the one-body system
`sysOne` with `duration = 1`, `rate = 1`. -/
theorem C1_sample_count_witness :
    (0 : ℝ) < 1 ∧ sysOne.bodies ≠ [] ∧ (∀ b ∈ sysOne.bodies, b.mass ≠ 0) ∧
    ∃ samples : List Sample,
      (sysOne.sample_positions 1 1).1 = .ok samples ∧
      samples.length = (Int.ceil ((1 : ℝ) * 1)).toNat + 1 ∧
      (∀ k (hk : k < samples.length), (samples.get ⟨k, hk⟩).t = (k : ℝ) * (1 / 1)) ∧
      samples.head? = some (sysOne.capture_sample 0) := by
  have hmass : ∀ b ∈ sysOne.bodies, b.mass ≠ 0 := by
    intro b hb
    rw [show sysOne.bodies = [bodyA] from rfl, List.mem_singleton] at hb
    subst hb
    norm_num [bodyA]
  exact ⟨one_pos, by simp [sysOne], hmass,
    C1_sample_count sysOne 1 1 one_pos one_pos (by simp [sysOne]) hmass⟩

/-- C2 counterexample: an argument-validation failure is an exit path on
which the bodies' accumulated forces are not reset: calling
`sample_positions(-1, 1)` on a system whose body carries force `(1,0,0)`
raises InvalidArgument and leaves that force nonzero, contradicting the
claim that every exit path ends with every accumulated force zero. -/
theorem C2_counterexample :
    (∃ msg, (sysF.sample_positions (-1) 1).1 = .error (.ValueError msg)) ∧
    ((sysF.sample_positions (-1) 1).2.bodies.getD 0 default).force ≠ 0 := by
  have h := sample_positions_invalid_state sysF (-1) 1 (Or.inl (by norm_num))
  refine ⟨h.2, ?_⟩
  rw [h.1]
  show bodyF.force ≠ 0
  intro hcon
  have h0 := congrFun hcon 0
  rw [show bodyF.force = v3 1 0 0 from rfl] at h0
  simp [v3] at h0

/-- C2 (amended): once the arguments pass validation (`duration > 0` and
`sample_rate_hz > 0`), every exit path of `sample_positions` — normal
completion or an error raised during the sampling loop — leaves every
body's position and velocity at their pre-call values and every
accumulated force zero; an argument-validation failure instead raises
InvalidArgument and leaves the System exactly as found (forces included). -/
theorem C2_state_restoration (s : System) (D R : ℝ) :
    (0 < D → 0 < R →
      (s.sample_positions D R).2 =
        { s with bodies := s.bodies.map (fun b => { b with force := 0 }) }) ∧
    (D ≤ 0 ∨ R ≤ 0 →
      (s.sample_positions D R).2 = s ∧
      ∃ msg, (s.sample_positions D R).1 = .error (.ValueError msg)) :=
  ⟨fun hD hR => sample_positions_restores s D R hD hR,
    fun h => sample_positions_invalid_state s D R h⟩

/-- C2 witness: the amended theorem applied to `sysF` with valid
arguments: the final state is `sysF` with the force reset. -/
theorem C2_state_restoration_witness :
    (0 : ℝ) < 1 ∧
    (sysF.sample_positions 1 1).2 =
      { sysF with bodies := sysF.bodies.map (fun b => { b with force := 0 }) } :=
  ⟨one_pos, (C2_state_restoration sysF 1 1).1 one_pos one_pos⟩

/-- C7: `sample_positions` fails with the `ValueError` (the spec's
InvalidArgument error) exactly when `duration ≤ 0` or `sample_rate_hz ≤ 0`;
with valid arguments a System with zero bodies returns the empty sample
list without raising and with its state untouched. -/
theorem C7_invalid_argument (s : System) (D R : ℝ) :
    ((∃ msg, (s.sample_positions D R).1 = .error (.ValueError msg)) ↔ (D ≤ 0 ∨ R ≤ 0)) ∧
    (0 < D → 0 < R → s.bodies = [] → s.sample_positions D R = (.ok [], s)) := by
  constructor
  · constructor
    · rintro ⟨msg, hmsg⟩
      by_contra hcon
      push_neg at hcon
      exact sample_positions_no_invalid s D R hcon.1 hcon.2 msg hmsg
    · intro h
      exact (sample_positions_invalid_state s D R h).2
  · exact fun hD hR he => sample_positions_empty s D R hD hR he

/-- C7 witness: the empty system with valid arguments returns the empty
sample list, via the theorem; and with a negative duration the error is
InvalidArgument, via the theorem's iff. -/
theorem C7_invalid_argument_witness :
    sysEmpty.sample_positions 1 1 = (.ok [], sysEmpty) ∧
    (∃ msg, (sysEmpty.sample_positions (-1) 1).1 = .error (.ValueError msg)) :=
  ⟨(C7_invalid_argument sysEmpty 1 1).2 one_pos one_pos rfl,
    ((C7_invalid_argument sysEmpty (-1) 1).1).2 (Or.inl (by norm_num))⟩

/-- C6: for a System whose bodies all have nonzero mass and whose non-star
bodies all lie within the cutoff of each other (culling effectively
disabled — the hypothesis under which the claim is stated), `step(dt)`
raises no error and leaves total momentum exactly unchanged under real
arithmetic, and hence momentum is conserved over any number `N` of steps. -/
theorem C6_momentum_conservation (s : System) (dt : ℝ) (N : ℕ)
    (hmass : ∀ b ∈ s.bodies, b.mass ≠ 0)
    (hcut : ∀ b1 ∈ s.bodies, ∀ b2 ∈ s.bodies, is_star b1 = false → is_star b2 = false →
      vnorm (b2.position - b1.position) ≤ CULL_DISTANCE_AU) :
    (s.stepN dt N).1 = none ∧ (s.stepN dt N).2.total_momentum = s.total_momentum := by
  have h := stepN_momentum s dt hmass N
  exact ⟨h.1, h.2.1⟩

/-- C6 witness: the theorem applied to the one-body unit-mass system with
`dt = 1` over `N = 2` steps. -/
theorem C6_momentum_conservation_witness :
    (∀ b ∈ sysOne.bodies, b.mass ≠ 0) ∧
    (sysOne.stepN 1 2).1 = none ∧ (sysOne.stepN 1 2).2.total_momentum = sysOne.total_momentum := by
  have hmass : ∀ b ∈ sysOne.bodies, b.mass ≠ 0 := by
    intro b hb
    rw [show sysOne.bodies = [bodyA] from rfl, List.mem_singleton] at hb
    subst hb
    norm_num [bodyA]
  have hcut : ∀ b1 ∈ sysOne.bodies, ∀ b2 ∈ sysOne.bodies,
      is_star b1 = false → is_star b2 = false →
      vnorm (b2.position - b1.position) ≤ CULL_DISTANCE_AU := by
    intro b1 hb1 b2 hb2 _ _
    rw [show sysOne.bodies = [bodyA] from rfl, List.mem_singleton] at hb1 hb2
    subst hb1
    subst hb2
    rw [sub_self]
    have hv : vnorm 0 = 0 := by
      unfold vnorm
      norm_num
    rw [hv]
    norm_num [CULL_DISTANCE_AU]
  exact ⟨hmass, C6_momentum_conservation sysOne 1 2 hmass hcut⟩

/-- C10: in any System (in particular one containing two or more bodies of
metadata kind "star"), `_compute_gravity` gives each star body a net force
equal to the sum of its pair forces with the non-star bodies only: no term
for any other star appears, at any separation — star-star pairs are in
neither the star pass (stars are paired with `non_stars` members only) nor
the culled pass (which runs over `non_stars` only) — while every non-star
body contributes its exact inverse-square pair force. -/
theorem C10_no_star_star_force (s : System) (hstars : 2 ≤ (star_indices s.bodies).length)
    (k : ℕ) (hk : k < s.bodies.length)
    (hstar : is_star (s.bodies.getD k default) = true) :
    (s.compute_gravity.bodies.getD k default).force =
      ((non_star_indices s.bodies).map
        (fun j => pair_force s.gravitational_constant s.bodies k j)).sum :=
  star_force_eq s k hk hstar

/-- First star of the two-star example system. -/
noncomputable def starA : PhysicsBody :=
  { name := "s1", mass := 1, position := v3 0 0 0, velocity := v3 0 0 0,
    force := v3 0 0 0, metadata := [("kind", "star")] }

/-- Second star of the two-star example system. -/
noncomputable def starB : PhysicsBody :=
  { name := "s2", mass := 1, position := v3 1 0 0, velocity := v3 0 0 0,
    force := v3 0 0 0, metadata := [("kind", "star")] }

/-- Non-star planet of the two-star example system. -/
noncomputable def planetC : PhysicsBody :=
  { name := "p", mass := 1, position := v3 0 1 0, velocity := v3 0 0 0,
    force := v3 0 0 0, metadata := [("kind", "rocky")] }

/-- System with two stars and one planet. -/
noncomputable def sysTwoStars : System :=
  { name := "two", gravitational_constant := 1, bodies := [starA, starB, planetC] }

/-- C10 witness: the theorem applied to the two-star system at the first
star. -/
theorem C10_no_star_star_force_witness :
    2 ≤ (star_indices sysTwoStars.bodies).length ∧
    0 < sysTwoStars.bodies.length ∧
    is_star (sysTwoStars.bodies.getD 0 default) = true ∧
    (sysTwoStars.compute_gravity.bodies.getD 0 default).force =
      ((non_star_indices sysTwoStars.bodies).map
        (fun j => pair_force sysTwoStars.gravitational_constant sysTwoStars.bodies 0 j)).sum := by
  have h1 : 2 ≤ (star_indices sysTwoStars.bodies).length := by
    rw [show star_indices sysTwoStars.bodies = [0, 1] from rfl]
    norm_num
  have h2 : 0 < sysTwoStars.bodies.length := by
    rw [show sysTwoStars.bodies = [starA, starB, planetC] from rfl]
    norm_num
  have h3 : is_star (sysTwoStars.bodies.getD 0 default) = true := rfl
  exact ⟨h1, h2, h3, C10_no_star_star_force sysTwoStars h1 0 h2 h3⟩

lemma mem_spec_culled_pairs_2d_dist {bodies : List PhysicsBody} {p : ℕ × ℕ}
    (hp : p ∈ spec_culled_pairs_2d bodies) :
    ∃ i j : ℕ, i < (non_star_indices bodies).length ∧ j < (non_star_indices bodies).length ∧
      i < j ∧
      p = ((non_star_indices bodies).getD i 0, (non_star_indices bodies).getD j 0) ∧
      0 < dist2D bodies ((non_star_indices bodies).getD i 0)
        ((non_star_indices bodies).getD j 0) := by
  simp only [spec_culled_pairs_2d, List.mem_flatMap, List.mem_map, List.mem_filter,
    List.mem_range] at hp
  obtain ⟨i, hi, j, ⟨⟨hj, hij⟩, hd⟩, rfl⟩ := hp
  exact ⟨i, j, hi, hj, by simpa using hij, rfl, (by simpa using hd : _ ∧ _).1⟩

lemma CULL_eq_one : CULL_DISTANCE_AU = 1 := by
  norm_num [CULL_DISTANCE_AU]

/-- First body of the planar-distance counterexample, at the origin. -/
noncomputable def bodyZ0 : PhysicsBody :=
  { name := "z0", mass := 1, position := v3 0 0 0, velocity := v3 0 0 0,
    force := v3 0 0 0, metadata := [] }

/-- Second body of the planar-distance counterexample: displaced only along
the z axis, Euclidean separation 1/2 but planar separation 0. -/
noncomputable def bodyZ1 : PhysicsBody :=
  { name := "z1", mass := 1, position := v3 0 0 (1/2), velocity := v3 0 0 0,
    force := v3 0 0 0, metadata := [] }

/-- Two-body system whose members are separated only along the z axis. -/
noncomputable def sysZ : System :=
  { name := "z", gravitational_constant := 1, bodies := [bodyZ0, bodyZ1] }

lemma sysZ_dist2D : dist2D sysZ.bodies 0 1 = 0 := by
  unfold dist2D
  rw [show (sysZ.bodies.getD 1 default).position = v3 0 0 (1/2) from rfl,
    show (sysZ.bodies.getD 0 default).position = v3 0 0 0 from rfl]
  unfold hypot
  rw [show v3 0 0 (1/2) 0 - v3 0 0 0 0 = 0 by simp [v3],
    show v3 0 0 (1/2) 1 - v3 0 0 0 1 = 0 by simp [v3]]
  norm_num

lemma sysZ_dist3D : dist3D sysZ.bodies 0 1 = 1/2 := by
  unfold dist3D
  rw [show (sysZ.bodies.getD 1 default).position = v3 0 0 (1/2) from rfl,
    show (sysZ.bodies.getD 0 default).position = v3 0 0 0 from rfl]
  unfold vnorm
  rw [show (v3 0 0 (1/2) - v3 0 0 0) 0 = 0 by simp [v3],
    show (v3 0 0 (1/2) - v3 0 0 0) 1 = 0 by simp [v3],
    show (v3 0 0 (1/2) - v3 0 0 0) 2 = 1/2 by simp [v3]]
  rw [show (0 : ℝ) ^ 2 + 0 ^ 2 + (1/2) ^ 2 = (1/2) ^ 2 by norm_num]
  exact Real.sqrt_sq (by norm_num)

lemma sysZ_spec2d_zero : spec_forces_2d sysZ 0 = 0 := by
  unfold spec_forces_2d
  apply List.sum_eq_zero
  intro x hx
  obtain ⟨p, hp, rfl⟩ := List.mem_map.1 hx
  rcases List.mem_append.1 hp with hp1 | hp2
  · rw [show spec_star_pairs sysZ.bodies = [] from rfl] at hp1
    cases hp1
  · exfalso
    obtain ⟨i, j, hi, hj, hij, -, hd⟩ := mem_spec_culled_pairs_2d_dist hp2
    rw [show (non_star_indices sysZ.bodies).length = 2 from rfl] at hi hj
    have hi0 : i = 0 := by omega
    have hj1 : j = 1 := by omega
    subst hi0
    subst hj1
    rw [show (non_star_indices sysZ.bodies).getD 0 0 = 0 from rfl,
      show (non_star_indices sysZ.bodies).getD 1 0 = 1 from rfl, sysZ_dist2D] at hd
    exact lt_irrefl 0 hd

lemma sysZ_culled3d : spec_culled_pairs_3d sysZ.bodies = [(0, 1)] := by
  have hb : (decide (0 < dist3D sysZ.bodies ((non_star_indices sysZ.bodies).getD 0 0)
      ((non_star_indices sysZ.bodies).getD 1 0) ∧
      dist3D sysZ.bodies ((non_star_indices sysZ.bodies).getD 0 0)
        ((non_star_indices sysZ.bodies).getD 1 0) ≤ CULL_DISTANCE_AU)) = true := by
    rw [decide_eq_true_eq,
      show (non_star_indices sysZ.bodies).getD 0 0 = 0 from rfl,
      show (non_star_indices sysZ.bodies).getD 1 0 = 1 from rfl, sysZ_dist3D, CULL_eq_one]
    norm_num
  simp only [spec_culled_pairs_3d]
  rw [show (non_star_indices sysZ.bodies).length = 2 from rfl,
    show List.range 2 = [0, 1] from rfl]
  rw [List.flatMap_cons, List.flatMap_cons, List.flatMap_nil]
  rw [show List.filter (fun j => decide (0 < j)) [0, 1] = [1] from by decide,
    show List.filter (fun j => decide (1 < j)) [0, 1] = [] from by decide]
  rw [List.filter_nil, List.map_nil, List.append_nil]
  rw [List.filter_cons, hb]
  rw [if_pos rfl]
  rfl

/-- C3 counterexample: the claim reads the culling test as Euclidean
separation, but the code culls by planar (x-y) distance: for two non-star
bodies separated by 1/2 along the z axis only, the claim's pair set contains
the pair (Euclidean separation 1/2 ≤ cutoff) while `_compute_gravity`
applies no force at all (planar distance 0 triggers the collocated skip in
the culled pass), so the computed force differs from the claimed sum. -/
theorem C3_counterexample :
    (sysZ.compute_gravity.bodies.getD 0 default).force ≠ spec_forces_3d sysZ 0 := by
  rw [gravity_forces_eq_spec2d sysZ 0 (by decide), sysZ_spec2d_zero]
  intro hcon
  have h2 := congrFun hcon 2
  rw [show (0 : Vec3) 2 = 0 from rfl] at h2
  have heval : spec_forces_3d sysZ 0 2 = 4 := by
    unfold spec_forces_3d
    rw [show spec_star_pairs sysZ.bodies = [] from rfl, sysZ_culled3d, List.nil_append,
      List.map_cons, List.map_nil, List.sum_cons, List.sum_nil, add_zero,
      show pair_contrib sysZ.gravitational_constant sysZ.bodies 0 (0, 1) =
        pair_force sysZ.gravitational_constant sysZ.bodies 0 1 from rfl]
    unfold pair_force
    have hv : vnorm ((sysZ.bodies.getD 1 default).position -
        (sysZ.bodies.getD 0 default).position) = 1/2 := by
      have h := sysZ_dist3D
      unfold dist3D at h
      exact h
    simp only [hv]
    rw [if_neg (by norm_num)]
    show (sysZ.gravitational_constant * (sysZ.bodies.getD 0 default).mass *
        (sysZ.bodies.getD 1 default).mass / (1/2 : ℝ) ^ 2) *
      ((((sysZ.bodies.getD 1 default).position -
        (sysZ.bodies.getD 0 default).position) 2) / (1/2 : ℝ)) = 4
    rw [show sysZ.gravitational_constant = 1 from rfl,
      show (sysZ.bodies.getD 0 default).mass = 1 from rfl,
      show (sysZ.bodies.getD 1 default).mass = 1 from rfl,
      show ((sysZ.bodies.getD 1 default).position -
          (sysZ.bodies.getD 0 default).position) 2 = 1/2 from by
        rw [show (sysZ.bodies.getD 1 default).position = v3 0 0 (1/2) from rfl,
          show (sysZ.bodies.getD 0 default).position = v3 0 0 0 from rfl]
        simp [v3]]
    norm_num
  rw [heval] at h2
  norm_num at h2

/-- C3 (amended): `_compute_gravity` raises no error (it is a total
function of the embedded state), and it leaves each body's accumulated
force equal to the sum of inverse-square pair contributions over exactly
these pairs: every (star, non-star) pair with nonzero Euclidean separation
regardless of distance, plus every unordered pair of non-star bodies,
counted once, whose planar (x-y plane) separation `d` satisfies
`0 < d ≤ CULL_DISTANCE_AU` — the force itself uses the full
three-dimensional inverse-square law, but the cull and the collocated skip
of the non-star pass test the planar distance, not the Euclidean one. -/
theorem C3_gravity_forces (s : System) (k : ℕ) (hk : k < s.bodies.length) :
    (s.compute_gravity.bodies.getD k default).force = spec_forces_2d s k :=
  gravity_forces_eq_spec2d s k hk

/-- C3 witness: the amended theorem applied to the concrete system `sysZ`
at body index 0. -/
theorem C3_gravity_forces_witness :
    0 < sysZ.bodies.length ∧
    (sysZ.compute_gravity.bodies.getD 0 default).force = spec_forces_2d sysZ 0 :=
  ⟨by decide, C3_gravity_forces sysZ 0 (by decide)⟩

/-- Concrete heap for the C4 counterexample and witness: one live body
whose metadata dict holds an atom and a mutable list value (list cell 0),
the shape produced when the raw planet dict — request position list
included — is spread into the body's metadata. -/
noncomputable def heapN : Heap :=
  { posCells := [v3 0 0 0]
    metaCells := [[("kind", MetaValue.atom "rocky"), ("position", MetaValue.listRef 0)]]
    listCells := [[1, 2, 3]] }

/-- Concrete live body referencing the cells of `heapN`. -/
def liveN : LiveBody := { name := "p", posRef := 0, metaRef := 0 }

/-- C4 counterexample: the claim fails as stated, because
`dict(body.metadata)` is a shallow copy. In `heapN` the live body's
metadata dict holds the mutable list object `listRef 0` under the key
"position"; after the capture returns, mutating that list in place through
the live body's metadata changes the resolved metadata of the already
returned sample record (the value under "position" goes from [1, 2, 3] to
[9]), so a mutation of a live body's metadata performed after the call
does alter the previously returned sample. -/
theorem C4_counterexample :
    ("position", MetaValue.listRef 0) ∈ heapN.readLiveMetaRaw liveN ∧
    ((capture_bodies_heap heapN [liveN]).1.writeList 0 [9]).readSampleMetaDeep
        ((capture_bodies_heap heapN [liveN]).2.getD 0 default) ≠
      (capture_bodies_heap heapN [liveN]).1.readSampleMetaDeep
        ((capture_bodies_heap heapN [liveN]).2.getD 0 default) := by
  constructor
  · show ("position", MetaValue.listRef 0) ∈
      [("kind", MetaValue.atom "rocky"), ("position", MetaValue.listRef 0)]
    simp
  · intro hcon
    have he : ((capture_bodies_heap heapN [liveN]).1.writeList 0 [9]).readSampleMetaDeep
        ((capture_bodies_heap heapN [liveN]).2.getD 0 default) =
        [("kind", Sum.inl "rocky"), ("position", Sum.inr [(9 : ℝ)])] := rfl
    have hb : (capture_bodies_heap heapN [liveN]).1.readSampleMetaDeep
        ((capture_bodies_heap heapN [liveN]).2.getD 0 default) =
        [("kind", Sum.inl "rocky"), ("position", Sum.inr [(1 : ℝ), 2, 3])] := rfl
    rw [he, hb] at hcon
    simp at hcon

/-- C4 (amended): in the heap model of `capture_sample`, each returned
per-body record stores the body's name, a reference to a freshly allocated
position cell holding a full copy of the current position
(`position.copy().tolist()` shares nothing with the live array), and a
reference to a freshly allocated dict cell holding a shallow copy of the
current metadata dict (`dict(body.metadata)`): the same top-level entries,
including any references the live dict holds to mutable list values. After
the call, overwriting any live body's position array and rebinding, adding
or removing top-level entries of its metadata dict leaves every returned
record's position and fully resolved metadata unchanged; only in-place
mutation of a shared nested list value, as in the counterexample, reaches
a returned record. -/
theorem C4_sample_shallow_copy (h : Heap) (live : List LiveBody)
    (hwf : ∀ b ∈ live, b.posRef < h.posCells.length ∧ b.metaRef < h.metaCells.length) :
    ((capture_bodies_heap h live).2.length = live.length ∧
      ∀ k, k < live.length →
        ((capture_bodies_heap h live).2.getD k default).name = (live.getD k default).name ∧
        (capture_bodies_heap h live).1.readSampleBody
            ((capture_bodies_heap h live).2.getD k default) =
          (h.readLivePos (live.getD k default), h.readLiveMetaRaw (live.getD k default))) ∧
    (∀ b ∈ live, ∀ (v : Vec3) (m : List (String × MetaValue)),
      ∀ sb ∈ (capture_bodies_heap h live).2,
        (((capture_bodies_heap h live).1.writePos b.posRef v).writeMeta b.metaRef m).readSamplePos sb =
          (capture_bodies_heap h live).1.readSamplePos sb ∧
        (((capture_bodies_heap h live).1.writePos b.posRef v).writeMeta b.metaRef m).readSampleMetaDeep sb =
          (capture_bodies_heap h live).1.readSampleMetaDeep sb) := by
  obtain ⟨i1, -, -, -, -, -, i6, i7⟩ := capture_bodies_heap_main live h hwf
  refine ⟨⟨i1, i7⟩, ?_⟩
  intro b hb v m sb hsb
  obtain ⟨hb1, hb2⟩ := hwf b hb
  obtain ⟨q1, q2⟩ := i6 sb hsb
  constructor
  · show ((capture_bodies_heap h live).1.posCells.set b.posRef v).getD sb.posRef 0 =
      (capture_bodies_heap h live).1.posCells.getD sb.posRef 0
    exact getD_set_ne _ _ _ _ _ (by omega)
  · have hm : (((capture_bodies_heap h live).1.writePos b.posRef v).writeMeta b.metaRef
        m).metaCells.getD sb.metaRef [] =
        (capture_bodies_heap h live).1.metaCells.getD sb.metaRef [] := by
      show ((capture_bodies_heap h live).1.metaCells.set b.metaRef m).getD sb.metaRef [] = _
      exact getD_set_ne _ _ _ _ _ (by omega)
    unfold Heap.readSampleMetaDeep
    rw [hm, resolveMeta_writePos_writeMeta]

/-- C4 witness: the amended theorem applied to the one-body heap `heapN`. -/
theorem C4_sample_shallow_copy_witness :
    (∀ b ∈ [liveN], b.posRef < heapN.posCells.length ∧ b.metaRef < heapN.metaCells.length) ∧
    (∀ b ∈ [liveN], ∀ (v : Vec3) (m : List (String × MetaValue)),
      ∀ sb ∈ (capture_bodies_heap heapN [liveN]).2,
        (((capture_bodies_heap heapN [liveN]).1.writePos b.posRef v).writeMeta b.metaRef m).readSamplePos sb =
          (capture_bodies_heap heapN [liveN]).1.readSamplePos sb ∧
        (((capture_bodies_heap heapN [liveN]).1.writePos b.posRef v).writeMeta b.metaRef m).readSampleMetaDeep sb =
          (capture_bodies_heap heapN [liveN]).1.readSampleMetaDeep sb) := by
  have hwf : ∀ b ∈ [liveN], b.posRef < heapN.posCells.length ∧
      b.metaRef < heapN.metaCells.length := by
    intro b hb
    rw [List.mem_singleton] at hb
    subst hb
    constructor
    · show 0 < 1
      norm_num
    · show 0 < 1
      norm_num
  exact ⟨hwf, (C4_sample_shallow_copy heapN [liveN] hwf).2⟩
